import Mathlib

set_option maxRecDepth 40000
set_option maxHeartbeats 1000000

/-!
# Verification of the heuristic tabular-data extraction engine

A shallow embedding, in Lean 4, of the extraction core of the repository:

* `src/app/api/parse-pdf/route.ts` — sheet selection, the grid metric
  extractor, derived values, sign normalization, confidence scoring;
* `src/lib/ai-financial-parser.ts` — the AI-assisted extractor, its
  heuristic fallback, and the validation/coercion of model JSON;
* `src/app/api/parse-products/route.ts` — the line-oriented product parser.

JavaScript numbers are embedded as `JSNum`: an exact rational together
with the three non-finite values `nan`, `inf`, `neginf`.  All arithmetic
used by the code (subtraction, absolute value, comparisons, `Math.min`/
`Math.max`, `parseFloat`) is given its ECMAScript semantics on this type;
the embedding is exact except for IEEE-754 rounding and overflow of
extreme magnitudes, which no theorem below relies on.  Regular
expressions are embedded as executable scanners with the leftmost /
greedy / lazy behaviour of the concrete patterns in the source.

Tables coming out of `XLSX.utils.sheet_to_json(…, {header: 1, defval: '',
raw: false})` are lists of rows of formatted strings, so a `RawTable` is
`List (List String)`.
-/

namespace JSEmbed

/-- An exact rational as a reduced fraction with positive denominator
(both maintained by the `norm` smart constructor, not by an invariant,
so that every operation is plain integer arithmetic the kernel can
evaluate). -/
structure JSRat where
  num : ℤ
  den : ℕ
deriving DecidableEq, Repr

namespace JSRat

/-- Euclid's algorithm with explicit fuel (the first argument strictly
decreases, so fuel `m + 1` always suffices for `gcdFuel f m n`). -/
def gcdFuel : ℕ → ℕ → ℕ → ℕ
  | 0, _, n => n
  | f + 1, m, n => if m = 0 then n else gcdFuel f (n % m) m

def natGcd (m n : ℕ) : ℕ := gcdFuel (m + 1) m n

/-- Normalized fraction `n / d` (positive denominator, reduced). -/
def norm (n d : ℤ) : JSRat :=
  if d = 0 then ⟨0, 0⟩
  else
    let n' := if d < 0 then -n else n
    let d' := d.natAbs
    let g := natGcd n'.natAbs d'
    ⟨Int.tdiv n' (g : ℤ), d' / g⟩

def ofInt (n : ℤ) : JSRat := ⟨n, 1⟩

def ofNat (n : ℕ) : JSRat := ⟨(n : ℤ), 1⟩

def addR (a b : JSRat) : JSRat :=
  norm (a.num * (b.den : ℤ) + b.num * (a.den : ℤ)) ((a.den : ℤ) * (b.den : ℤ))

def subR (a b : JSRat) : JSRat :=
  norm (a.num * (b.den : ℤ) - b.num * (a.den : ℤ)) ((a.den : ℤ) * (b.den : ℤ))

def mulR (a b : JSRat) : JSRat :=
  norm (a.num * b.num) ((a.den : ℤ) * (b.den : ℤ))

/-- Strict order by cross-multiplication (denominators are
non-negative by construction). -/
def ltb (a b : JSRat) : Bool := a.num * (b.den : ℤ) < b.num * (a.den : ℤ)

/-- Non-strict order by cross-multiplication. -/
def leb (a b : JSRat) : Bool := a.num * (b.den : ℤ) ≤ b.num * (a.den : ℤ)

def absR (a : JSRat) : JSRat := ⟨|a.num|, a.den⟩

def negR (a : JSRat) : JSRat := ⟨-a.num, a.den⟩

instance : OfNat JSRat n := ⟨JSRat.ofNat n⟩

instance : Neg JSRat := ⟨JSRat.negR⟩

end JSRat

/-- A JavaScript number: an exact rational, or one of `NaN`, `Infinity`,
`-Infinity`. -/
inductive JSNum where
  | fin (q : JSRat)
  | nan
  | inf
  | neginf
deriving DecidableEq, Repr

namespace JSNum

instance : OfNat JSNum n := ⟨JSNum.fin (JSRat.ofNat n)⟩

/-- JavaScript `x === 0` (false for `NaN` and the infinities). -/
def eq0 : JSNum → Bool
  | fin q => q.num = 0
  | _ => false

/-- JavaScript `x !== 0` (true for `NaN`: `NaN !== 0`). -/
def ne0 (v : JSNum) : Bool := !v.eq0

/-- JavaScript `<` — any comparison with `NaN` is false. -/
def ltB : JSNum → JSNum → Bool
  | nan, _ => false
  | _, nan => false
  | neginf, neginf => false
  | neginf, _ => true
  | _, neginf => false
  | inf, _ => false
  | fin _, inf => true
  | fin p, fin q => p.ltb q

/-- JavaScript `>`. -/
def gtB (a b : JSNum) : Bool := ltB b a

/-- `Math.abs`. -/
def absJS : JSNum → JSNum
  | fin q => fin q.absR
  | nan => nan
  | inf => inf
  | neginf => inf

/-- JavaScript subtraction with the IEEE rules for the non-finite values. -/
def subJS : JSNum → JSNum → JSNum
  | nan, _ => nan
  | _, nan => nan
  | inf, inf => nan
  | inf, _ => inf
  | neginf, neginf => nan
  | neginf, _ => neginf
  | fin _, inf => neginf
  | fin _, neginf => inf
  | fin p, fin q => fin (p.subR q)

/-- JavaScript addition with the IEEE rules for the non-finite values. -/
def addJS : JSNum → JSNum → JSNum
  | nan, _ => nan
  | _, nan => nan
  | inf, neginf => nan
  | neginf, inf => nan
  | inf, _ => inf
  | _, inf => inf
  | neginf, _ => neginf
  | _, neginf => neginf
  | fin p, fin q => fin (p.addR q)

/-- JavaScript multiplication with the IEEE rules (`Infinity * 0 = NaN`). -/
def mulJS : JSNum → JSNum → JSNum
  | nan, _ => nan
  | _, nan => nan
  | fin p, fin q => fin (p.mulR q)
  | inf, inf => inf
  | inf, neginf => neginf
  | neginf, inf => neginf
  | neginf, neginf => inf
  | inf, fin q => if q.num = 0 then nan else if 0 < q.num then inf else neginf
  | fin p, inf => if p.num = 0 then nan else if 0 < p.num then inf else neginf
  | neginf, fin q => if q.num = 0 then nan else if 0 < q.num then neginf else inf
  | fin p, neginf => if p.num = 0 then nan else if 0 < p.num then neginf else inf

/-- Division by the positive literal 100 (used for percentage values). -/
def div100 : JSNum → JSNum
  | fin q => fin (JSRat.norm q.num ((q.den : ℤ) * 100))
  | nan => nan
  | inf => inf
  | neginf => neginf

/-- `Math.max` (NaN-propagating). -/
def maxJS : JSNum → JSNum → JSNum
  | nan, _ => nan
  | _, nan => nan
  | inf, _ => inf
  | _, inf => inf
  | neginf, b => b
  | a, neginf => a
  | fin p, fin q => fin (if p.ltb q then q else p)

/-- `Math.min` (NaN-propagating). -/
def minJS : JSNum → JSNum → JSNum
  | nan, _ => nan
  | _, nan => nan
  | neginf, _ => neginf
  | _, neginf => neginf
  | inf, b => b
  | a, inf => a
  | fin p, fin q => fin (if q.ltb p then q else p)

/-- JavaScript truthiness of a number (`0` and `NaN` are falsy). -/
def truthy : JSNum → Bool
  | fin q => q.num ≠ 0
  | nan => false
  | _ => true

/-- JavaScript `x || d` for numbers. -/
def orElse (v d : JSNum) : JSNum := if v.truthy then v else d

/-- The value is a finite number. -/
def isFinite : JSNum → Bool
  | fin _ => true
  | _ => false

/-- The value is `Infinity` or `-Infinity`. -/
def isInfinite : JSNum → Bool
  | inf => true
  | neginf => true
  | _ => false

/-- `|a| > |b|` in JavaScript. -/
def absGt (a b : JSNum) : Bool := gtB a.absJS b.absJS

/-- The value is a non-negative number (`NaN` is not). -/
def nonneg : JSNum → Bool
  | fin q => 0 ≤ q.num
  | nan => false
  | inf => true
  | neginf => false

/-- The value is `≥ 0`, or is `NaN` (used to state sign normalization
including the degenerate `NaN` case). -/
def nonnegOrNaN : JSNum → Bool
  | fin q => 0 ≤ q.num
  | nan => true
  | inf => true
  | neginf => false

/-- JavaScript `<=` — false as soon as one side is `NaN`. -/
def leB : JSNum → JSNum → Bool
  | nan, _ => false
  | _, nan => false
  | neginf, _ => true
  | _, neginf => false
  | _, inf => true
  | inf, _ => false
  | fin p, fin q => p.leb q

end JSNum

/-- A dynamically-typed JavaScript value as fed to `parseValue` — the
grid cells produced with `raw: false` are strings, but the function also
accepts numbers. -/
inductive JSVal where
  | str (s : String)
  | num (n : JSNum)

/-! ## Character-level utilities (JS `\s`, `trim`, `toLowerCase`, `includes`) -/

/-- The ASCII whitespace characters matched by the JS `\s` class and
skipped by `trim` / `parseFloat` (the embedding restricts attention to
ASCII input). -/
def jsWs (c : Char) : Bool :=
  c = ' ' || c = '\t' || c = '\n' || c = '\r' || c = '\x0b' || c = '\x0c'

/-- `String.prototype.trim` on a character list. -/
def trimChars (cs : List Char) : List Char :=
  ((cs.dropWhile jsWs).reverse.dropWhile jsWs).reverse

def trimStr (s : String) : String := String.mk (trimChars s.data)

/-- ASCII `toLowerCase`. -/
def lowerChars (cs : List Char) : List Char := cs.map Char.toLower

def lowerStr (s : String) : String := String.mk (lowerChars s.data)

/-- ASCII `toUpperCase`. -/
def upperStr (s : String) : String := String.mk (s.data.map Char.toUpper)

/-- Contiguous-sublist test on character lists: JS
`haystack.includes(needle)`. -/
def listIncl (hay needle : List Char) : Bool :=
  match hay with
  | [] => needle.isEmpty
  | _ :: rest => needle.isPrefixOf hay || listIncl rest needle

/-- JS `haystack.includes(needle)` on strings. -/
def strIncl (hay needle : String) : Bool := listIncl hay.data needle.data

/-- JS `String.prototype.split('\n')`. -/
def splitOnNl : List Char → List (List Char)
  | [] => [[]]
  | c :: rest =>
    match splitOnNl rest with
    | [] => if c = '\n' then [[], []] else [[c]]
    | h :: t => if c = '\n' then [] :: h :: t else (c :: h) :: t

/-- `join(' ')` of a list of strings. -/
def joinSpace : List String → List Char
  | [] => []
  | [s] => s.data
  | s :: rest => s.data ++ ' ' :: joinSpace rest

/-- Numeric value of a digit string. -/
def natOfDigits (ds : List Char) : ℕ :=
  ds.foldl (fun n c => n * 10 + (c.toNat - 48)) 0

/-! ## `parseFloat`

ECMAScript `parseFloat`: skip whitespace, then take the longest prefix
that is a `StrDecimalLiteral` — an optional sign followed by `Infinity`,
or by decimal digits with optional fraction and exponent.  The mantissa
and exponent are kept as an exact rational (IEEE rounding/overflow of
extreme literals is not modelled; no theorem relies on it). -/

/-- Optional decimal exponent part: `e`/`E`, optional sign, at least one
digit; contributes 0 when absent or malformed (the malformed suffix is
simply not part of the longest valid prefix). -/
def parseExponent (cs : List Char) : ℤ :=
  match cs with
  | e :: rest =>
    if e = 'e' || e = 'E' then
      let (esign, rest2) :=
        match rest with
        | '-' :: r => ((-1 : ℤ), r)
        | '+' :: r => ((1 : ℤ), r)
        | _ => ((1 : ℤ), rest)
      let ds := rest2.takeWhile Char.isDigit
      if ds.isEmpty then 0 else esign * (natOfDigits ds : ℤ)
    else 0
  | [] => 0

/-- The value `± (ip·10^fracLen + fp) / 10^fracLen · 10^exp` of a
decimal literal, as a normalized fraction. -/
def decimalValue (neg : Bool) (ip fp : ℕ) (fracLen : ℕ) (exp : ℤ) : JSRat :=
  let m : ℤ := (ip : ℤ) * (10 : ℤ) ^ fracLen + (fp : ℤ)
  let n : ℤ := if neg then -m else m
  if 0 ≤ exp then
    JSRat.norm (n * (10 : ℤ) ^ exp.toNat) ((10 : ℤ) ^ fracLen)
  else
    JSRat.norm n ((10 : ℤ) ^ fracLen * (10 : ℤ) ^ (-exp).toNat)

/-- `parseFloat` on a character list. -/
def parseFloatChars (cs0 : List Char) : JSNum :=
  let cs1 := cs0.dropWhile jsWs
  let (neg, cs) :=
    match cs1 with
    | '-' :: r => (true, r)
    | '+' :: r => (false, r)
    | _ => (false, cs1)
  if "Infinity".data.isPrefixOf cs then
    if neg then JSNum.neginf else JSNum.inf
  else
    let ip := cs.takeWhile Char.isDigit
    let r1 := cs.dropWhile Char.isDigit
    let fp :=
      match r1 with
      | '.' :: r => r.takeWhile Char.isDigit
      | _ => []
    let r2 :=
      match r1 with
      | '.' :: r => r.dropWhile Char.isDigit
      | _ => r1
    if ip.isEmpty && fp.isEmpty then JSNum.nan
    else
      JSNum.fin
        (decimalValue neg (natOfDigits ip) (natOfDigits fp) fp.length
          (parseExponent r2))

def parseFloatStr (s : String) : JSNum := parseFloatChars s.data

/-- `parseInt` restricted to a plain digit string (every call site below
applies it to a regex group matched by `\d+`). -/
def parseIntDigits (ds : List Char) : JSNum :=
  JSNum.fin (JSRat.ofNat (natOfDigits ds))

end JSEmbed

namespace ParsePdfRoute

open JSEmbed JSNum

/-! ## `src/app/api/parse-pdf/route.ts` -/

/-- Grid data as produced by `sheet_to_json(…, {header:1, defval:'', raw:false})`:
rows of formatted string cells. -/
abbrev RawTable := List (List String)

/-- A workbook: sheets in order, keyed by name (`SheetNames` order). -/
abbrev Workbook := List (String × RawTable)

/-- First match of the regex `-?\d+\.?\d*` at the head of the input:
an optional minus (kept only when a digit follows), a greedy digit run,
an optional dot, a greedy digit run. -/
def numTokenAt (cs : List Char) : Option (List Char) :=
  let core (cs : List Char) : List Char :=
    let d1 := cs.takeWhile Char.isDigit
    match cs.dropWhile Char.isDigit with
    | '.' :: r2 => d1 ++ '.' :: r2.takeWhile Char.isDigit
    | _ => d1
  match cs with
  | '-' :: c :: rest => if c.isDigit then some ('-' :: core (c :: rest)) else none
  | c :: _ => if c.isDigit then some (core cs) else none
  | [] => none

/-- Leftmost match of `-?\d+\.?\d*` anywhere in the input
(`cleaned.match` with the regex above). -/
def firstNumberMatch : List Char → Option (List Char)
  | [] => none
  | c :: rest =>
    match numTokenAt (c :: rest) with
    | some m => some m
    | none => firstNumberMatch rest

/-- Remove the first occurrence of a character
(JS `String.prototype.replace` with a string pattern replaces only the
first occurrence). -/
def removeFirst (x : Char) : List Char → List Char
  | [] => []
  | c :: rest => if c = x then rest else c :: removeFirst x rest

/-- JS `split('.')`. -/
def splitOnDot : List Char → List (List Char)
  | [] => [[]]
  | c :: rest =>
    match splitOnDot rest with
    | [] => if c = '.' then [[], []] else [[c]]
    | h :: t => if c = '.' then [] :: h :: t else (c :: h) :: t

/-- The `parseValue` helper of `extractFinancialDataFromExcel`
(route.ts:208-260): strip `[,$\s]`, resolve `(x)` to `-x`, then the
percentage / scientific-notation / thousands-separator / currency-symbol
branches, then regex-extract the first numeric substring, with
`parseFloat` and `isNaN` guards exactly as in the source. -/
def parseValue : JSVal → JSNum
  | .num n => n
  | .str v =>
    let cleaned := v.data.filter (fun c => !(c = ',' || c = '$' || jsWs c))
    let cleaned :=
      if cleaned.head? = some '(' && cleaned.getLast? = some ')' then
        '-' :: (cleaned.drop 1).dropLast
      else cleaned
    if listIncl cleaned ['%'] then
      let parsed := parseFloatChars (removeFirst '%' cleaned)
      if parsed = JSNum.nan then JSNum.fin 0 else parsed.div100
    else if listIncl cleaned ['e'] || listIncl cleaned ['E'] then
      let parsed := parseFloatChars cleaned
      if parsed = JSNum.nan then JSNum.fin 0 else parsed
    else
      -- thousands-separator branch of the source; unreachable in fact,
      -- since commas were already stripped by the `[,$\s]` filter above
      let cleaned :=
        if listIncl cleaned [','] then
          let parts := splitOnDot cleaned
          match parts with
          | [intPart, fracPart] =>
            intPart.filter (· ≠ ',') ++ '.' :: fracPart
          | _ => cleaned.filter (· ≠ ',')
        else cleaned
      let cleaned := cleaned.filter (fun c => !(c = '$' || c = '€' || c = '£' || c = '¥'))
      match firstNumberMatch cleaned with
      | some m =>
        let parsed := parseFloatChars m
        if parsed = JSNum.nan then JSNum.fin 0 else parsed
      | none =>
        let parsed := parseFloatChars cleaned
        if parsed = JSNum.nan then JSNum.fin 0 else parsed

/-- `parseValue` applied to a (string) grid cell. -/
def parseCell (c : String) : JSNum := parseValue (.str c)

/-- The keyword list of `scoreSheetForFinancialData` (route.ts:167-170). -/
def financialKeywords : List String :=
  ["revenue", "sales", "income", "assets", "liabilities", "equity",
   "cash", "profit", "expenses", "cost", "debt", "receivable", "payable"]

/-- `scoreSheetForFinancialData` (route.ts:165-185): +1 per row per
keyword contained in the row's lowercased, space-joined text. -/
def scoreSheetForFinancialData (data : RawTable) : ℕ :=
  data.foldl
    (fun score row =>
      if row.isEmpty then score
      else
        let rowText := String.mk (joinSpace (row.map lowerStr))
        financialKeywords.foldl
          (fun s kw => if strIncl rowText kw then s + 1 else s) score)
    0

/-- The sheet-selection loop of `parseExcelFile` (route.ts:112-140):
start from the first sheet name with empty data, replace the candidate by
any sheet whose score is positive, and if the accumulated data is still
empty look the remembered name up in the sheet map. -/
def selectBestSheet (wb : Workbook) : String × RawTable :=
  let first := wb.headD ("", [])
  let best :=
    wb.foldl
      (fun acc e =>
        if 0 < scoreSheetForFinancialData e.2 then (e.1, e.2) else acc)
      (first.1, ([] : RawTable))
  if best.2.isEmpty then
    (best.1, ((wb.find? (fun e => e.1 = best.1)).map (·.2)).getD [])
  else best

/-- The fifteen numeric fields written by the pattern dictionary
(`year`/`quarter` are not label-matched). -/
inductive FinField where
  | revenue | costOfGoodsSold | grossProfit | operatingExpenses
  | operatingIncome | netIncome | totalAssets | totalLiabilities
  | totalEquity | cash | accountsReceivable | inventory
  | propertyPlantEquipment | accountsPayable | longTermDebt
deriving DecidableEq, Repr

/-- The `FinancialData` record (route.ts:5-23). -/
structure FinancialData where
  revenue : JSNum
  costOfGoodsSold : JSNum
  grossProfit : JSNum
  operatingExpenses : JSNum
  operatingIncome : JSNum
  netIncome : JSNum
  totalAssets : JSNum
  totalLiabilities : JSNum
  totalEquity : JSNum
  cash : JSNum
  accountsReceivable : JSNum
  inventory : JSNum
  propertyPlantEquipment : JSNum
  accountsPayable : JSNum
  longTermDebt : JSNum
  year : JSNum
  quarter : Option String := none
deriving DecidableEq, Repr

/-- Dynamic field read, `financialData[key]`. -/
def FinancialData.get (fd : FinancialData) : FinField → JSNum
  | .revenue => fd.revenue
  | .costOfGoodsSold => fd.costOfGoodsSold
  | .grossProfit => fd.grossProfit
  | .operatingExpenses => fd.operatingExpenses
  | .operatingIncome => fd.operatingIncome
  | .netIncome => fd.netIncome
  | .totalAssets => fd.totalAssets
  | .totalLiabilities => fd.totalLiabilities
  | .totalEquity => fd.totalEquity
  | .cash => fd.cash
  | .accountsReceivable => fd.accountsReceivable
  | .inventory => fd.inventory
  | .propertyPlantEquipment => fd.propertyPlantEquipment
  | .accountsPayable => fd.accountsPayable
  | .longTermDebt => fd.longTermDebt

/-- Dynamic field write, `(financialData as any)[key] = value`. -/
def FinancialData.set (fd : FinancialData) : FinField → JSNum → FinancialData
  | .revenue, v => { fd with revenue := v }
  | .costOfGoodsSold, v => { fd with costOfGoodsSold := v }
  | .grossProfit, v => { fd with grossProfit := v }
  | .operatingExpenses, v => { fd with operatingExpenses := v }
  | .operatingIncome, v => { fd with operatingIncome := v }
  | .netIncome, v => { fd with netIncome := v }
  | .totalAssets, v => { fd with totalAssets := v }
  | .totalLiabilities, v => { fd with totalLiabilities := v }
  | .totalEquity, v => { fd with totalEquity := v }
  | .cash, v => { fd with cash := v }
  | .accountsReceivable, v => { fd with accountsReceivable := v }
  | .inventory, v => { fd with inventory := v }
  | .propertyPlantEquipment, v => { fd with propertyPlantEquipment := v }
  | .accountsPayable, v => { fd with accountsPayable := v }
  | .longTermDebt, v => { fd with longTermDebt := v }

/-- All-defaults record (route.ts:188-205): zeros, current year. -/
def defaultFinancialData (currentYear : ℤ) : FinancialData :=
  { revenue := 0, costOfGoodsSold := 0, grossProfit := 0
    operatingExpenses := 0, operatingIncome := 0, netIncome := 0
    totalAssets := 0, totalLiabilities := 0, totalEquity := 0
    cash := 0, accountsReceivable := 0, inventory := 0
    propertyPlantEquipment := 0, accountsPayable := 0, longTermDebt := 0
    year := JSNum.fin (JSRat.ofInt currentYear) }

/-- The synonym dictionary (route.ts:263-322), in `Object.entries`
insertion order. -/
def patterns : List (FinField × List String) :=
  [ (.revenue,
     ["revenue", "sales", "income", "total revenue", "net sales", "gross sales",
      "service revenue", "product revenue", "operating revenue", "net revenue"]),
    (.costOfGoodsSold,
     ["cost of goods sold", "cogs", "cost of sales", "cost of revenue",
      "direct costs", "cost of products sold", "cost of services"]),
    (.grossProfit,
     ["gross profit", "gross income", "gross margin", "gross earnings"]),
    (.operatingExpenses,
     ["operating expenses", "opex", "operating costs", "total operating expenses",
      "selling general administrative", "sga", "administrative expenses",
      "selling expenses", "general expenses"]),
    (.operatingIncome,
     ["operating income", "operating profit", "ebit", "earnings before interest and tax",
      "operating earnings", "operating result"]),
    (.netIncome,
     ["net income", "net profit", "net earnings", "net result", "profit after tax",
      "net profit after tax", "bottom line"]),
    (.totalAssets,
     ["total assets", "total current assets", "assets", "total asset"]),
    (.totalLiabilities,
     ["total liabilities", "total current liabilities", "liabilities", "total liability"]),
    (.totalEquity,
     ["total equity", "shareholders equity", "stockholders equity", "owner equity",
      "share capital", "retained earnings", "total shareholders equity"]),
    (.cash,
     ["cash", "cash and cash equivalents", "cash equivalents", "cash on hand",
      "cash and bank", "petty cash"]),
    (.accountsReceivable,
     ["accounts receivable", "receivables", "trade receivables", "customer receivables",
      "accounts receivable net", "net receivables"]),
    (.inventory,
     ["inventory", "inventories", "stock", "merchandise", "raw materials",
      "work in progress", "finished goods"]),
    (.propertyPlantEquipment,
     ["property plant and equipment", "ppe", "fixed assets", "tangible assets",
      "property equipment", "plant equipment", "capital assets"]),
    (.accountsPayable,
     ["accounts payable", "payables", "trade payables", "vendor payables",
      "accounts payable net", "net payables"]),
    (.longTermDebt,
     ["long-term debt", "long term debt", "long-term liabilities", "long term liabilities",
      "non-current debt", "debt", "borrowings", "loans payable"]) ]

/-- One `(key, term)` step of the pattern-matching loop
(route.ts:359-370): if the lowercased cell contains the term and a
non-zero value was found, overwrite the field when it is still 0 or when
the new magnitude strictly exceeds the current one. -/
def applyTerm (cellValue : String) (value : JSNum) (fd : FinancialData)
    (key : FinField) (term : String) : FinancialData :=
  if strIncl cellValue (lowerStr term) then
    if value.ne0 && ((fd.get key).eq0 || value.absGt (fd.get key)) then
      fd.set key value
    else fd
  else fd

/-- The full `for (const [key, terms] of Object.entries(patterns))` loop
for one candidate label cell. -/
def updateForCell (cellValue : String) (value : JSNum) (fd : FinancialData) :
    FinancialData :=
  patterns.foldl
    (fun fd kv => kv.2.foldl (fun fd term => applyTerm cellValue value fd kv.1 term) fd)
    fd

/-- Value lookup for a label cell (route.ts:336-356): right neighbour
first, then left neighbour, then the cell itself; the first non-zero
parse wins (when none is non-zero the last parse, the cell itself, is
returned — it then fails the `value !== 0` guard downstream). -/
def adjacentValue (row : List String) (i : ℕ) : JSNum :=
  let selfV := parseCell (row.getD i "")
  let leftSelf :=
    if 0 < i then
      match row.get? (i - 1) with
      | some c => let v := parseCell c; if v.ne0 then v else selfV
      | none => selfV
    else selfV
  match row.get? (i + 1) with
  | some c => let v := parseCell c; if v.ne0 then v else leftSelf
  | none => leftSelf

/-- Primary label-matching pass (route.ts:324-372). -/
def labelPass (fd : FinancialData) (data : RawTable) : FinancialData :=
  data.foldl
    (fun fd row =>
      if row.isEmpty then fd
      else
        (List.range row.length).foldl
          (fun fd i =>
            let cellValue := trimStr (lowerStr (row.getD i ""))
            if cellValue = "" then fd
            else updateForCell cellValue (adjacentValue row i) fd)
          fd)
    fd

/-- The row text used by the total/subtotal pass
(`row.map(String).join(' ').toLowerCase()`). -/
def rowTextOf (row : List String) : String := String.mk (lowerChars (joinSpace row))

/-- Secondary total/subtotal inference pass (route.ts:374-412). -/
def totalPass (fd : FinancialData) (data : RawTable) : FinancialData :=
  data.foldl
    (fun fd row =>
      if row.isEmpty then fd
      else
        let rowText := rowTextOf row
        if strIncl rowText "total" || strIncl rowText "subtotal" then
          row.foldl
            (fun fd cell =>
              let value := parseCell cell
              if value.gtB 0 then
                if strIncl rowText "revenue" || strIncl rowText "sales" then
                  if fd.revenue.eq0 then { fd with revenue := value } else fd
                else if strIncl rowText "assets" then
                  if fd.totalAssets.eq0 then { fd with totalAssets := value } else fd
                else if strIncl rowText "liabilities" then
                  if fd.totalLiabilities.eq0 then { fd with totalLiabilities := value } else fd
                else if strIncl rowText "equity" then
                  if fd.totalEquity.eq0 then { fd with totalEquity := value } else fd
                else fd
              else fd)
            fd
        else fd)
    fd

/-- Tertiary large-number fallback (route.ts:414-435): only when both
revenue and totalAssets are still 0; any cell parsing above 10000 (and
noticed because it is above 1000) becomes revenue while revenue is 0. -/
def bigNumberPass (fd : FinancialData) (data : RawTable) : FinancialData :=
  if fd.revenue.eq0 && fd.totalAssets.eq0 then
    data.foldl
      (fun fd row =>
        if row.isEmpty then fd
        else
          row.foldl
            (fun fd cell =>
              let value := parseCell cell
              if value.gtB 1000 then
                if fd.revenue.eq0 && value.gtB 10000 then { fd with revenue := value }
                else fd
              else fd)
            fd)
      fd
  else fd

/-- First derived-value rule (route.ts:438-440). -/
def derivedGrossProfit (fd : FinancialData) : FinancialData :=
  if fd.grossProfit.eq0 && fd.revenue.gtB 0 && fd.costOfGoodsSold.gtB 0 then
    { fd with grossProfit := fd.revenue.subJS fd.costOfGoodsSold }
  else fd

/-- Second derived-value rule (route.ts:442-444), reading the
grossProfit possibly just filled in. -/
def derivedOperatingIncome (fd : FinancialData) : FinancialData :=
  if fd.operatingIncome.eq0 && fd.grossProfit.gtB 0 && fd.operatingExpenses.gtB 0 then
    { fd with operatingIncome := fd.grossProfit.subJS fd.operatingExpenses }
  else fd

/-- Third derived-value rule (route.ts:446-448). -/
def derivedTotalEquity (fd : FinancialData) : FinancialData :=
  if fd.totalEquity.eq0 && fd.totalAssets.gtB 0 && fd.totalLiabilities.gtB 0 then
    { fd with totalEquity := fd.totalAssets.subJS fd.totalLiabilities }
  else fd

/-- Derived-value rules (route.ts:437-448), applied in source order. -/
def derivedPass (fd : FinancialData) : FinancialData :=
  derivedTotalEquity (derivedOperatingIncome (derivedGrossProfit fd))

/-- `Object.keys(financialData)` minus `year`/`quarter`, in insertion
order (the keys the sign-normalization loop touches). -/
def finFieldKeys : List FinField :=
  [.revenue, .costOfGoodsSold, .grossProfit, .operatingExpenses,
   .operatingIncome, .netIncome, .totalAssets, .totalLiabilities,
   .totalEquity, .cash, .accountsReceivable, .inventory,
   .propertyPlantEquipment, .accountsPayable, .longTermDebt]

/-- One step of the sign-normalization loop (route.ts:450-459). -/
def absStepFn (fd : FinancialData) (key : FinField) : FinancialData :=
  if (fd.get key).ltB 0 then fd.set key (fd.get key).absJS else fd

/-- Sign-normalization pass: negative values are replaced by their
absolute value, `year`/`quarter` excluded. -/
def absPass (fd : FinancialData) : FinancialData :=
  finFieldKeys.foldl absStepFn fd

/-- `extractFinancialDataFromExcel` (route.ts:187-462), end to end. -/
def extractFinancialDataFromExcel (currentYear : ℤ) (data : RawTable) :
    FinancialData :=
  absPass (derivedPass (bigNumberPass (totalPass (labelPass
    (defaultFinancialData currentYear) data) data) data))

/-- `calculateConfidence` (route.ts:534-547). -/
def calculateConfidence (d : FinancialData) : ℕ :=
  let checks : List Bool :=
    [d.revenue.gtB 0, d.netIncome.ne0, d.totalAssets.gtB 0,
     d.totalLiabilities.gtB 0, d.cash.gtB 0, d.accountsReceivable.gtB 0,
     d.inventory.gtB 0]
  let weights : List ℕ := [20, 20, 15, 15, 10, 10, 10]
  let confidence : ℕ := (checks.zip weights).foldl
    (fun s cw => if cw.1 then s + cw.2 else s) 0
  let totalChecks : ℕ := checks.foldl (fun n c => if c then n + 1 else n) 0
  if 0 < totalChecks then min confidence 100 else 0

end ParsePdfRoute

namespace AIFinancialParser

open JSEmbed JSNum ParsePdfRoute

/-! ## `src/lib/ai-financial-parser.ts`

The `FinancialData` / `ParsedFinancialStatement` interfaces of this file
are textually identical to those of the route, so the record types are
shared.  The JSON value produced by `JSON.parse` on the model completion
is embedded as `JsonVal`; `JSON.parse` itself (an engine built-in) is an
oracle parameter: a completion is modelled together with the outcome of
parsing its extracted brace block. -/

/-- A parsed JSON value (the dynamically-typed `any` that
`JSON.parse` returns). -/
inductive JsonVal where
  | jnull
  | jbool (b : Bool)
  | jnum (q : JSRat)
  | jstr (s : String)
  | jarr (elems : List JsonVal)
  | jobj (fields : List (String × JsonVal))

/-- JavaScript truthiness of a JSON value (JSON numbers are never `NaN`). -/
def jsonTruthy : JsonVal → Bool
  | .jnull => false
  | .jbool b => b
  | .jnum q => q ≠ 0
  | .jstr s => s ≠ ""
  | .jarr _ => true
  | .jobj _ => true

/-- Property access `v[k]` (`undefined` = `none` on non-objects and
missing keys). -/
def jget : JsonVal → String → Option JsonVal
  | .jobj fields, k => (fields.find? (fun f => f.1 = k)).map (·.2)
  | _, _ => none

/-- JS `v || d`. -/
def jsOrVal (v d : JsonVal) : JsonVal := if jsonTruthy v then v else d

/-- JS `o || d` where `o` may be `undefined`. -/
def jgetOr (o : Option JsonVal) (d : JsonVal) : JsonVal :=
  match o with
  | some v => jsOrVal v d
  | none => d

/-- Optional chaining `v?.[k]` after a `data.data` access: `undefined`
and `null` short-circuit. -/
def jgetChain (o : Option JsonVal) (k : String) : Option JsonVal :=
  match o with
  | some .jnull => none
  | some d => jget d k
  | none => none

/-- `cleanNumber` (ai-financial-parser.ts:287-295): numbers pass through,
strings are stripped of `,` and `$` and fed to `parseFloat` with an
`isNaN` guard, everything else is 0. -/
def cleanNumber (value : Option JsonVal) : JSNum :=
  match value with
  | some (.jnum q) => JSNum.fin q
  | some (.jstr s) =>
    let cleaned := s.data.filter (fun c => !(c = ',' || c = '$'))
    let parsed := parseFloatChars cleaned
    if parsed = JSNum.nan then JSNum.fin 0 else parsed
  | _ => JSNum.fin 0

/-- The loosely-typed record coming out of `parseAIResponse` /
`validateAndCleanData` (the source returns `any`; `companyName`,
`statementType` and `period` stay whatever JSON values the model sent). -/
structure AIParsed where
  companyName : JsonVal
  statementType : JsonVal
  period : JsonVal
  data : FinancialData
  confidence : JSNum

/-- `getDefaultFinancialData` (ai-financial-parser.ts:297-316); the
record literal is the same as the route's. -/
def getDefaultFinancialData (currentYear : ℤ) : FinancialData :=
  defaultFinancialData currentYear

/-- `validateAndCleanData` (ai-financial-parser.ts:258-285). -/
def validateAndCleanData (currentYear : ℤ) (data : JsonVal) : AIParsed :=
  let dd := jget data "data"
  let fget (k : String) : Option JsonVal := jgetChain dd k
  { companyName := jgetOr (jget data "companyName") (.jstr "Unknown Company")
    statementType := jgetOr (jget data "statementType") (.jstr "income")
    period := jgetOr (jget data "period") (.jstr (toString currentYear))
    data :=
      { revenue := (cleanNumber (fget "revenue")).orElse 0
        costOfGoodsSold := (cleanNumber (fget "costOfGoodsSold")).orElse 0
        grossProfit := (cleanNumber (fget "grossProfit")).orElse 0
        operatingExpenses := (cleanNumber (fget "operatingExpenses")).orElse 0
        operatingIncome := (cleanNumber (fget "operatingIncome")).orElse 0
        netIncome := (cleanNumber (fget "netIncome")).orElse 0
        totalAssets := (cleanNumber (fget "totalAssets")).orElse 0
        totalLiabilities := (cleanNumber (fget "totalLiabilities")).orElse 0
        totalEquity := (cleanNumber (fget "totalEquity")).orElse 0
        cash := (cleanNumber (fget "cash")).orElse 0
        accountsReceivable := (cleanNumber (fget "accountsReceivable")).orElse 0
        inventory := (cleanNumber (fget "inventory")).orElse 0
        propertyPlantEquipment := (cleanNumber (fget "propertyPlantEquipment")).orElse 0
        accountsPayable := (cleanNumber (fget "accountsPayable")).orElse 0
        longTermDebt := (cleanNumber (fget "longTermDebt")).orElse 0
        year := (cleanNumber (fget "year")).orElse (JSNum.fin (JSRat.ofInt currentYear)) }
    confidence :=
      minJS (maxJS ((cleanNumber (jget data "confidence")).orElse 0) (JSNum.fin 0))
        (JSNum.fin 100) }

/-- The greedy brace block matched by the regex of `parseAIResponse`:
from the first opening brace to the last closing brace; `none` when no
closing brace follows the first opening brace. -/
def extractBraces (cs : List Char) : Option (List Char) :=
  let rest := cs.dropWhile (fun c => c ≠ '\x7b')
  match rest with
  | [] => none
  | _ :: _ =>
    let revDrop := rest.reverse.dropWhile (fun c => c ≠ '\x7d')
    match revDrop with
    | [] => none
    | [_] => none
    | _ => some revDrop.reverse

/-- All-defaults `any` structure returned by the `catch` branch of
`parseAIResponse` (ai-financial-parser.ts:247-254). -/
def defaultAIParsed (currentYear : ℤ) : AIParsed :=
  { companyName := .jstr "Unknown Company"
    statementType := .jstr "income"
    period := .jstr (toString currentYear)
    data := getDefaultFinancialData currentYear
    confidence := JSNum.fin 0 }

/-- `parseAIResponse` (ai-financial-parser.ts:230-256).  `parsedJson` is
the oracle outcome of `JSON.parse` on the extracted brace block:
`none` means the parse throws.  Both the missing-block throw and the
parse failure are caught and produce the default structure. -/
def parseAIResponse (currentYear : ℤ) (response : String)
    (parsedJson : Option JsonVal) : AIParsed :=
  match extractBraces response.data with
  | none => defaultAIParsed currentYear
  | some _ =>
    match parsedJson with
    | none => defaultAIParsed currentYear
    | some v => validateAndCleanData currentYear v

/-- `ParsedFinancialStatement` (ai-financial-parser.ts:23-30) as it
exists at runtime: the three nominally-string fields hold whatever JSON
values flowed into them. -/
structure ParsedStatement where
  companyName : JsonVal
  statementType : JsonVal
  period : JsonVal
  data : FinancialData
  rawText : String
  confidence : JSNum

/-- `extractNumberFromLine` (ai-financial-parser.ts:161-169): first
match of one-to-three digits with optional thousands groups and an
optional two-digit decimal part, commas stripped, `parseFloat`, `isNaN`
guard. -/
def extractNumberFromLine (line : String) : JSNum :=
  let rec firstTok : List Char → Option (List Char)
    | [] => none
    | c :: rest =>
      match enfTokenAt (c :: rest) with
      | some m => some m
      | none => firstTok rest
  match firstTok line.data with
  | some m =>
    let parsed := parseFloatChars (m.filter (· ≠ ','))
    if parsed = JSNum.nan then JSNum.fin 0 else parsed
  | none => JSNum.fin 0
where
  /-- Greedy comma-separated thousands groups `(,\d{3})*`. -/
  commaGroups : List Char → List Char × List Char
    | ',' :: a :: b :: c :: r =>
      if a.isDigit && b.isDigit && c.isDigit then
        let (g, r2) := commaGroups r
        (',' :: a :: b :: c :: g, r2)
      else ([], ',' :: a :: b :: c :: r)
    | cs => ([], cs)
  /-- Optional two-digit decimal part `(\.\d{2})?`. -/
  optDot2 : List Char → List Char
    | '.' :: a :: b :: _ => if a.isDigit && b.isDigit then ['.', a, b] else []
    | _ => []
  /-- One attempted match of the regex at the head of the input. -/
  enfTokenAt (cs : List Char) : Option (List Char) :=
    let core (cs : List Char) : List Char :=
      let d13 := (cs.takeWhile Char.isDigit).take 3
      let r1 := cs.drop d13.length
      let (cg, r2) := commaGroups r1
      d13 ++ cg ++ optDot2 r2
    match cs with
    | '-' :: c :: rest => if c.isDigit then some ('-' :: core (c :: rest)) else none
    | c :: _ => if c.isDigit then some (core cs) else none
    | [] => none

/-- The company-name heuristic of `fallbackParsing`
(ai-financial-parser.ts:96-103): first of the first five trimmed lines
with length in (3, 100), no dollar sign, and not all digits. -/
def pickCompanyName (lines : List String) : String :=
  match (lines.take 5).find? (fun raw =>
      let l := trimStr raw
      decide (3 < l.data.length) && decide (l.data.length < 100) &&
        !(listIncl l.data ['$']) &&
        !(!l.data.isEmpty && l.data.all Char.isDigit)) with
  | some raw => trimStr raw
  | none => "Unknown Company"

/-- The per-line field scan of `fallbackParsing`
(ai-financial-parser.ts:106-144); all six pattern groups are tested on
every line, later lines simply overwrite earlier positive matches. -/
def scanLine (fd : FinancialData) (line : String) : FinancialData :=
  let lowerLine := lowerStr line
  let hit (b : Bool) (upd : JSNum → FinancialData → FinancialData)
      (fd : FinancialData) : FinancialData :=
    if b then
      let value := extractNumberFromLine line
      if value.gtB 0 then upd value fd else fd
    else fd
  let fd := hit (strIncl lowerLine "revenue" || strIncl lowerLine "sales" ||
      strIncl lowerLine "income") (fun v fd => { fd with revenue := v }) fd
  let fd := hit (strIncl lowerLine "cost of goods sold" || strIncl lowerLine "cogs")
      (fun v fd => { fd with costOfGoodsSold := v }) fd
  let fd := hit (strIncl lowerLine "net income" || strIncl lowerLine "net profit")
      (fun v fd => { fd with netIncome := v }) fd
  let fd := hit (strIncl lowerLine "total assets")
      (fun v fd => { fd with totalAssets := v }) fd
  let fd := hit (strIncl lowerLine "total liabilities")
      (fun v fd => { fd with totalLiabilities := v }) fd
  hit (strIncl lowerLine "cash") (fun v fd => { fd with cash := v }) fd

/-- The class's `calculateConfidence` (ai-financial-parser.ts:171-184);
its body duplicates the route's scorer. -/
def aiCalculateConfidence (d : FinancialData) : ℕ :=
  let checks : List Bool :=
    [d.revenue.gtB 0, d.netIncome.ne0, d.totalAssets.gtB 0,
     d.totalLiabilities.gtB 0, d.cash.gtB 0, d.accountsReceivable.gtB 0,
     d.inventory.gtB 0]
  let weights : List ℕ := [20, 20, 15, 15, 10, 10, 10]
  let confidence : ℕ := (checks.zip weights).foldl
    (fun s cw => if cw.1 then s + cw.2 else s) 0
  let totalChecks : ℕ := checks.foldl (fun n c => if c then n + 1 else n) 0
  if 0 < totalChecks then min confidence 100 else 0

/-- `fallbackParsing` (ai-financial-parser.ts:90-159): split into lines,
pick a company name, pattern-scan every line, derive gross profit, and
score. -/
def fallbackParsing (currentYear : ℤ) (text : String) : ParsedStatement :=
  let lines := (splitOnNl text.data).map String.mk
  let companyName := pickCompanyName lines
  let fd := lines.foldl scanLine (getDefaultFinancialData currentYear)
  let fd :=
    if fd.grossProfit.eq0 && fd.revenue.gtB 0 && fd.costOfGoodsSold.gtB 0 then
      { fd with grossProfit := fd.revenue.subJS fd.costOfGoodsSold }
    else fd
  { companyName := .jstr companyName
    statementType := .jstr "income"
    period := .jstr (toString currentYear)
    data := fd
    rawText := text
    confidence := JSNum.fin (JSRat.ofNat (aiCalculateConfidence fd)) }

/-- Outcome of the model-completion attempt, the external dependency of
`parseFinancialDataFromText`:  no usable credential; the transport call
throwing; a response with no content; or a completion string together
with the `JSON.parse` oracle for its brace block. -/
inductive AIOutcome where
  | noKey
  | transportError
  | emptyCompletion
  | completion (s : String) (parsedJson : Option JsonVal)

/-- `parseFinancialDataFromText` (ai-financial-parser.ts:41-88).
The first three outcomes reach `fallbackParsing` (directly, or via the
thrown error caught at line 83).  A delivered completion goes through
`parseAIResponse`, which never throws, and is wrapped with the
`||`-defaults of lines 75-82. -/
def parseFinancialDataFromText (currentYear : ℤ) (outcome : AIOutcome)
    (text : String) : ParsedStatement :=
  match outcome with
  | .noKey => fallbackParsing currentYear text
  | .transportError => fallbackParsing currentYear text
  | .emptyCompletion => fallbackParsing currentYear text
  | .completion s parsedJson =>
    let parsedData := parseAIResponse currentYear s parsedJson
    { companyName := jsOrVal parsedData.companyName (.jstr "Unknown Company")
      statementType := jsOrVal parsedData.statementType (.jstr "income")
      period := jsOrVal parsedData.period (.jstr (toString currentYear))
      data := parsedData.data
      rawText := text
      confidence := parsedData.confidence.orElse 0 }

end AIFinancialParser

namespace ParseProductsRoute

open JSEmbed JSNum AIFinancialParser

/-! ## `src/app/api/parse-products/route.ts` -/

/-- `ProductItem` (parse-products/route.ts:5-10). -/
structure ProductItem where
  name : String
  price : JSNum
  quantity : JSNum
  currency : String
deriving DecidableEq, Repr

/-- `ParsedProductList` (parse-products/route.ts:12-18). -/
structure ParsedProductList where
  products : List ProductItem
  totalItems : JSNum
  totalValue : JSNum
  rawText : String
  confidence : JSNum
deriving DecidableEq, Repr

/-- The currency symbols of the price regexes. -/
def isCurrencySymbol (c : Char) : Bool :=
  c = '$' || c = '€' || c = '£' || c = '¥'

/-- The three dash variants of the line format. -/
def isDash (c : Char) : Bool :=
  c = '-' || c = '–' || c = '—'

/-- Greedy thousands groups `(,\d{3})*`: comma followed by exactly three
digits, repeated. -/
def commaGroups3 : List Char → List Char × List Char
  | ',' :: a :: b :: c :: r =>
    if a.isDigit && b.isDigit && c.isDigit then
      let (g, r2) := commaGroups3 r
      (',' :: a :: b :: c :: g, r2)
    else ([], ',' :: a :: b :: c :: r)
  | cs => ([], cs)

/-- Optional two-digit decimal part `(\.\d{2})?`; returns the matched
characters and the remainder. -/
def optDotTwo : List Char → List Char × List Char
  | '.' :: a :: b :: r =>
    if a.isDigit && b.isDigit then (['.', a, b], r) else ([], '.' :: a :: b :: r)
  | cs => ([], cs)

/-- One attempt, at the head of the input, of the capture group of
`parsePrice`'s regex (optional currency symbol, `\s*`, then
`\d+(?:,\d{3})*(?:\.\d{2})?`); returns the captured group. -/
def priceGroupAt (cs : List Char) : Option (List Char) :=
  let cs1 :=
    match cs with
    | c :: r => if isCurrencySymbol c then r else cs
    | [] => cs
  let cs2 := cs1.dropWhile jsWs
  let ds := cs2.takeWhile Char.isDigit
  if ds.isEmpty then none
  else
    let r1 := cs2.dropWhile Char.isDigit
    let (cg, r2) := commaGroups3 r1
    let (dd, _) := optDotTwo r2
    some (ds ++ cg ++ dd)

/-- `parsePrice` (parse-products/route.ts:172-178): leftmost match of
the price pattern, commas stripped, `parseFloat`; 0 when nothing
matches. -/
def parsePrice (s : String) : JSNum :=
  let rec scan : List Char → Option (List Char)
    | [] => none
    | c :: rest =>
      match priceGroupAt (c :: rest) with
      | some g => some g
      | none => scan rest
  match scan s.data with
  | some g => parseFloatChars (g.filter (· ≠ ','))
  | none => JSNum.fin 0

/-- `parseQuantity` (parse-products/route.ts:180-186): the regex
`(\d+)\s*(?:pieces?|units?|pcs?|qty|quantity)?` — since the keyword
group is optional and after the capture group, the captured group of the
leftmost match is simply the first digit run of the string; `parseInt`
of it, default 1. -/
def firstDigitRun : List Char → Option (List Char)
  | [] => none
  | c :: rest =>
    if c.isDigit then some ((c :: rest).takeWhile Char.isDigit)
    else firstDigitRun rest

def parseQuantity (s : String) : JSNum :=
  match firstDigitRun s.data with
  | some ds => parseIntDigits ds
  | none => JSNum.fin 1

/-- `detectCurrency` (parse-products/route.ts:188-194). -/
def detectCurrency (s : String) : String :=
  if listIncl s.data ['$'] || strIncl (upperStr s) "USD" then "USD"
  else if listIncl s.data ['€'] || strIncl (upperStr s) "EUR" then "EUR"
  else if listIncl s.data ['£'] || strIncl (upperStr s) "GBP" then "GBP"
  else if listIncl s.data ['¥'] || strIncl (upperStr s) "JPY" then "JPY"
  else "USD"

/-- The lazy-group search of format 1: shortest non-empty prefix
followed by `\s*` and a dash; returns the group and the remainder after
the dash.  (Failure cannot be rescued by regex backtracking for this
pattern: a dash usable as separator exists iff this search finds one.) -/
def findLazyDash : List Char → List Char → Option (List Char × List Char)
  | [], _ => none
  | c :: rest, acc =>
    match rest.dropWhile jsWs with
    | d :: tail =>
      if isDash d then some (acc ++ [c], tail)
      else findLazyDash rest (acc ++ [c])
    | [] => findLazyDash rest (acc ++ [c])

/-- Format 1 of `fallbackParsing` (parse-products/route.ts:202):
`^(.+?)\s*[-–—]\s*(.+?)\s*[-–—]\s*(.+?)$` with lazy groups.  When the
text after the second dash is all whitespace the greedy `\s*` backs off
one character so that the third group is the final whitespace
character, as the JS engine does. -/
def matchFormat1 (s : String) : Option (String × String × String) :=
  match findLazyDash s.data [] with
  | none => none
  | some (g1, r1) =>
    match findLazyDash (r1.dropWhile jsWs) [] with
    | none => none
    | some (g2, r2) =>
      match r2.dropWhile jsWs with
      | c :: tail => some (String.mk g1, String.mk g2, String.mk (c :: tail))
      | [] =>
        match r2.getLast? with
        | some c => some (String.mk g1, String.mk g2, String.mk [c])
        | none => none

/-- One attempt of `[\$€£¥]\s*\d+` at the head of the input. -/
def symbolPriceAt (cs : List Char) : Bool :=
  match cs with
  | c :: r =>
    isCurrencySymbol c &&
      match (r.dropWhile jsWs).head? with
      | some d => d.isDigit
      | none => false
  | [] => false

/-- Case-insensitive match of one of the ISO codes `USD|EUR|GBP|JPY` at
the head of the input; returns the remainder. -/
def codeKeywordAt (cs : List Char) : Option (List Char) :=
  match cs with
  | a :: b :: c :: r =>
    let w := String.mk [a.toUpper, b.toUpper, c.toUpper]
    if w = "USD" || w = "EUR" || w = "GBP" || w = "JPY" then some r else none
  | _ => none

/-- One attempt of `\d+\s*(?:USD|EUR|GBP|JPY)` at the head of the input;
returns the remainder. -/
def codePriceAt (cs : List Char) : Option (List Char) :=
  let ds := cs.takeWhile Char.isDigit
  if ds.isEmpty then none
  else codeKeywordAt ((cs.dropWhile Char.isDigit).dropWhile jsWs)

/-- `hasPrice`: `/[\$€£¥]\s*\d+|\d+\s*(?:USD|EUR|GBP|JPY)/i.test(line)`. -/
def hasPrice (s : String) : Bool :=
  let rec scan : List Char → Bool
    | [] => false
    | c :: rest =>
      symbolPriceAt (c :: rest) || (codePriceAt (c :: rest)).isSome || scan rest
  scan s.data

/-- Case-insensitive match of one of `pieces?|units?|pcs?|qty|quantity`
(in the source's alternation order) at the head of the input; returns
the remainder. -/
def qtyKeywordAt (withQuantity : Bool) (cs : List Char) : Option (List Char) :=
  let lcs := cs.map Char.toLower
  let tryWord (w : List Char) (optS : Bool) : Option (List Char) :=
    if w.isPrefixOf lcs then
      let r := cs.drop w.length
      if optS then
        match r with
        | c :: r2 => if c.toLower = 's' then some r2 else some r
        | [] => some r
      else some r
    else none
  match tryWord "piece".data true with
  | some r => some r
  | none =>
    match tryWord "unit".data true with
    | some r => some r
    | none =>
      match tryWord "pc".data true with
      | some r => some r
      | none =>
        match tryWord "qty".data false with
        | some r => some r
        | none =>
          if withQuantity then tryWord "quantity".data false else none

/-- One attempt of `\d+\s*(?:pieces?|units?|pcs?|qty…)` at the head of
the input; returns the remainder. -/
def qtyTokenAt (withQuantity : Bool) (cs : List Char) : Option (List Char) :=
  let ds := cs.takeWhile Char.isDigit
  if ds.isEmpty then none
  else qtyKeywordAt withQuantity ((cs.dropWhile Char.isDigit).dropWhile jsWs)

/-- `hasQuantity`: `/\d+\s*(?:pieces?|units?|pcs?|qty)/i.test(line)` —
note: without the `quantity` alternative. -/
def hasQuantity (s : String) : Bool :=
  let rec scan : List Char → Bool
    | [] => false
    | c :: rest => (qtyTokenAt false (c :: rest)).isSome || scan rest
  scan s.data

/-- One attempt, at the head of the input, of the *mandatory-symbol*
price pattern `[\$€£¥]\s*\d+(?:,\d{3})*(?:\.\d{2})?` used by the
name-stripping replace; returns the remainder. -/
def symbolPriceTokenAt (cs : List Char) : Option (List Char) :=
  match cs with
  | c :: r =>
    if isCurrencySymbol c then
      let cs2 := r.dropWhile jsWs
      let ds := cs2.takeWhile Char.isDigit
      if ds.isEmpty then none
      else
        let r1 := cs2.dropWhile Char.isDigit
        let (_, r2) := commaGroups3 r1
        let (_, r3) := optDotTwo r2
        some r3
    else none
  | [] => none

/-- Global regex replace by deletion: scan left to right, delete every
leftmost non-overlapping match.  Every match consumes at least one
character, so fuel `cs.length` always suffices. -/
def stripAll (matchAt : List Char → Option (List Char)) :
    ℕ → List Char → List Char
  | 0, cs => cs
  | _ + 1, [] => []
  | fuel + 1, c :: rest =>
    match matchAt (c :: rest) with
    | some r2 => stripAll matchAt fuel r2
    | none => c :: stripAll matchAt fuel rest

/-- The product-name derivation of the free-text branch
(parse-products/route.ts:225-230): strip symbol-prices, code-prices,
quantity tokens and dashes, then trim. -/
def deriveName (cs : List Char) : List Char :=
  let a := stripAll symbolPriceTokenAt cs.length cs
  let b := stripAll codePriceAt a.length a
  let c := stripAll (qtyTokenAt true) b.length b
  trimChars (c.filter (fun ch => !isDash ch))

/-- Processing of one line of `fallbackParsing`
(parse-products/route.ts:196-241): the dash format first (falling
through when its price is not positive), then the free-text branch. -/
def processLine (acc : List ProductItem) (line : String) : List ProductItem :=
  let t := trimStr line
  if t.data.isEmpty || t.data.length < 3 then acc
  else
    let format2 : List ProductItem :=
      if hasPrice t || hasQuantity t then
        let price := parsePrice t
        let quantity := parseQuantity t
        let currency := detectCurrency t
        let name := String.mk (deriveName t.data)
        if !name.data.isEmpty && decide (2 < name.data.length) &&
            (price.gtB 0 || quantity.gtB 0) then
          acc ++ [{ name := name, price := price.orElse 0,
                    quantity := quantity.orElse 1, currency := currency }]
        else acc
      else acc
    match matchFormat1 t with
    | some (name, priceStr, qtyStr) =>
      let price := parsePrice priceStr
      let quantity := parseQuantity qtyStr
      let currency := detectCurrency priceStr
      if !name.data.isEmpty && price.gtB 0 then
        acc ++ [{ name := trimStr name, price := price,
                  quantity := quantity, currency := currency }]
      else format2
    | none => format2

/-- `fallbackParsing` (parse-products/route.ts:168-253). -/
def fallbackParsing (text : String) : ParsedProductList :=
  let lines := (splitOnNl text.data).map String.mk
  let products := lines.foldl processLine []
  { products := products
    totalItems := products.foldl (fun s p => s.addJS p.quantity) (JSNum.fin 0)
    totalValue :=
      products.foldl (fun s p => s.addJS (p.price.mulJS p.quantity)) (JSNum.fin 0)
    rawText := text
    confidence := if 0 < products.length then JSNum.fin 60 else JSNum.fin 0 }

/-- JS `String(v)` on a JSON value.  (For non-integral numbers and
composite values the exact JS rendering is irrelevant to every theorem
below; integers and strings — the cases the prompt contract produces —
are rendered exactly.) -/
def jsonToDisplay : JsonVal → String
  | .jstr s => s
  | .jnum q => if q.den = 1 then toString q.num
      else toString q.num ++ "/" ++ toString q.den
  | .jbool b => if b then "true" else "false"
  | .jnull => "null"
  | .jarr _ => ""
  | .jobj _ => "[object Object]"

/-- `parseFloat(v)` on a JSON value (the argument is coerced to a string
first; for a finite JS number that round-trips to the number itself). -/
def jsonParseFloat : Option JsonVal → JSNum
  | some (.jnum q) => JSNum.fin q
  | some (.jstr s) => parseFloatChars s.data
  | _ => JSNum.nan

/-- `parseInt(v)` on a JSON value (decimal semantics; truncation toward
zero for numbers). -/
def jsonParseInt : Option JsonVal → JSNum
  | some (.jnum q) => JSNum.fin (JSRat.ofInt (Int.tdiv q.num (q.den : ℤ)))
  | some (.jstr s) =>
    let cs := s.data.dropWhile jsWs
    let (neg, cs) :=
      match cs with
      | '-' :: r => (true, r)
      | '+' :: r => (false, r)
      | _ => (false, cs)
    let ds := cs.takeWhile Char.isDigit
    if ds.isEmpty then JSNum.nan
    else
      JSNum.fin
        (if neg then JSRat.negR (JSRat.ofNat (natOfDigits ds))
         else JSRat.ofNat (natOfDigits ds))
  | _ => JSNum.nan

/-- The mapping of one model product (parse-products/route.ts:144-149). -/
def jsonToProduct (p : JsonVal) : ProductItem :=
  { name := jsonToDisplay (jgetOr (jget p "name") (.jstr "Unknown Product"))
    price := (jsonParseFloat (jget p "price")).orElse 0
    quantity := (jsonParseInt (jget p "quantity")).orElse 1
    currency := jsonToDisplay (jgetOr (jget p "currency") (.jstr "USD")) }

/-- `parseProductsWithAI` (parse-products/route.ts:67-166).  Unlike the
financial class, every failure of the completion path — including a
completion with no brace block, an unparsable brace block, and a truthy
non-array `products` field (whose `.map` throws) — is caught by the
single outer `try`/`catch` and falls back to the heuristic parser. -/
def parseProductsWithAI (outcome : AIOutcome) (text : String) :
    ParsedProductList :=
  match outcome with
  | .noKey => fallbackParsing text
  | .transportError => fallbackParsing text
  | .emptyCompletion => fallbackParsing text
  | .completion s parsedJson =>
    match extractBraces s.data with
    | none => fallbackParsing text
    | some _ =>
      match parsedJson with
      | none => fallbackParsing text
      | some v =>
        match jgetOr (jget v "products") (.jarr []) with
        | .jarr l =>
          let products := l.map jsonToProduct
          { products := products
            totalItems := products.foldl (fun s p => s.addJS p.quantity) (JSNum.fin 0)
            totalValue :=
              products.foldl (fun s p => s.addJS (p.price.mulJS p.quantity)) (JSNum.fin 0)
            rawText := text
            confidence :=
              minJS
                (maxJS
                  (match jget v "confidence" with
                   | some cv =>
                     if jsonTruthy cv then
                       match cv with
                       | .jnum q => JSNum.fin q
                       | .jstr s2 => parseFloatChars (trimChars s2.data)
                       | _ => JSNum.nan
                     else JSNum.fin 0
                   | none => JSNum.fin 0)
                  (JSNum.fin 0))
                (JSNum.fin 100) }
        | _ => fallbackParsing text

end ParseProductsRoute

/-! ## Supporting lemmas -/

namespace ParsePdfRoute

open JSEmbed JSNum

lemma foldl_preserve {α : Type _} {β : Type _} (P : α → Prop) (f : α → β → α)
    (l : List β) (h : ∀ a b, b ∈ l → P a → P (f a b)) (a : α) (ha : P a) :
    P (l.foldl f a) := by
  induction l generalizing a with
  | nil => exact ha
  | cons b t ih =>
    exact ih (fun a' b' hb' => h a' b' (List.mem_cons_of_mem _ hb')) _
      (h a b (List.mem_cons_self _ _) ha)

lemma get_set (fd : FinancialData) (g f : FinField) (v : JSNum) :
    (fd.set g v).get f = if g = f then v else fd.get f := by
  cases g <;> cases f <;> simp [FinancialData.get, FinancialData.set]

lemma set_year (fd : FinancialData) (g : FinField) (v : JSNum) :
    (fd.set g v).year = fd.year := by
  cases g <;> rfl

lemma score_pos_ne_nil {d : RawTable} (h : 0 < scoreSheetForFinancialData d) :
    d ≠ [] := by
  intro hd
  subst hd
  simp [scoreSheetForFinancialData] at h

lemma foldl_const_replace {α : Type _} {β : Type _} (g : β → α) (l : List β)
    (init : α) :
    l.foldl (fun _ e => g e) init = (l.getLast?.map g).getD init := by
  induction l generalizing init with
  | nil => rfl
  | cons x t ih =>
    rw [List.foldl_cons, ih]
    cases t with
    | nil => rfl
    | cons y s =>
      have hs : (y :: s).getLast?.isSome := by
        rw [List.getLast?_isSome]
        simp
      obtain ⟨z, hz⟩ := Option.isSome_iff_exists.mp hs
      rw [List.getLast?_cons_cons, hz]
      rfl

lemma mem_of_getLast?_eq_some {α : Type _} {l : List α} {z : α}
    (h : l.getLast? = some z) : z ∈ l := by
  obtain ⟨hne, hz⟩ := List.mem_getLast?_eq_getLast (Option.mem_def.mpr h)
  rw [hz]
  exact List.getLast_mem hne

lemma selectLoop_eq (wb : Workbook) (init : String × RawTable) :
    wb.foldl
        (fun acc e =>
          if 0 < scoreSheetForFinancialData e.2 then (e.1, e.2) else acc) init =
      (((wb.filter (fun e => 0 < scoreSheetForFinancialData e.2)).getLast?).map
        (fun e => (e.1, e.2))).getD init := by
  induction wb generalizing init with
  | nil => rfl
  | cons x t ih =>
    rw [List.foldl_cons, List.filter_cons]
    by_cases hx : 0 < scoreSheetForFinancialData x.2
    · rw [if_pos hx, if_pos (by simpa using hx), ih]
      cases hft : t.filter (fun e => 0 < scoreSheetForFinancialData e.2) with
      | nil => rfl
      | cons y s =>
        have hs : (y :: s).getLast?.isSome := by
          rw [List.getLast?_isSome]
          simp
        obtain ⟨z, hz⟩ := Option.isSome_iff_exists.mp hs
        rw [List.getLast?_cons_cons, hz]
        rfl
    · rw [if_neg hx, if_neg (by simpa using hx), ih]

end ParsePdfRoute

/-! ## Claim C1 — sheet selection -/

namespace Claims

open JSEmbed JSNum ParsePdfRoute

/-- C1 (amended): the sheet-selection loop of `parseExcelFile` keeps the
*last* sheet, in workbook order, whose financial-keyword score is
positive (it does not compare scores); when no sheet scores positively
it falls back, without error, to the first sheet in workbook order. -/
theorem c1_selector_last_positive (wb : Workbook) (hne : wb ≠ []) :
    selectBestSheet wb =
      (((wb.filter (fun e => 0 < scoreSheetForFinancialData e.2)).getLast?).map
        (fun e => (e.1, e.2))).getD (wb.headD ("", [])) := by
  simp only [selectBestSheet]
  rw [selectLoop_eq]
  cases hft : wb.filter (fun e => 0 < scoreSheetForFinancialData e.2) with
  | nil =>
    simp only [hft, List.getLast?, Option.map_none', Option.getD_none]
    cases wb with
    | nil => exact absurd rfl hne
    | cons h t =>
      simp only [List.headD_cons, List.isEmpty_nil, if_pos rfl]
      simp [List.find?]
  | cons y s =>
    have hs : (y :: s).getLast?.isSome := by
      rw [List.getLast?_isSome]
      simp
    obtain ⟨z, hz⟩ := Option.isSome_iff_exists.mp hs
    have hzmem : z ∈ y :: s := mem_of_getLast?_eq_some hz
    have hzf : z ∈ wb.filter (fun e => 0 < scoreSheetForFinancialData e.2) := by
      rw [hft]; exact hzmem
    have hzpos : 0 < scoreSheetForFinancialData z.2 := by
      simpa using List.of_mem_filter hzf
    have hzne : z.2 ≠ [] := score_pos_ne_nil hzpos
    rw [hz]
    simp only [Option.map_some', Option.getD_some]
    rw [if_neg (by simpa [List.isEmpty_iff] using hzne)]

/-- Witness for C1 at a concrete one-sheet workbook with score 0: the
fallback returns the first sheet. -/
theorem c1_selector_witness :
    selectBestSheet [("S", [["abc"]])] = ("S", [["abc"]]) :=
  (c1_selector_last_positive [("S", [["abc"]])] (by decide)).trans (by decide)

/-- C1 counterexample: with sheet A scoring 2 and sheet B scoring 1, the
selector returns B (the last positive sheet), not the strictly
highest-scoring sheet A that the claim requires. -/
theorem c1_selector_counterexample :
    (selectBestSheet [("A", [["revenue"], ["cash"]]), ("B", [["cash"]])]).1 = "B" ∧
      scoreSheetForFinancialData [["cash"]] <
        scoreSheetForFinancialData [["revenue"], ["cash"]] := by
  constructor
  · rfl
  · decide

end Claims

/-! ## Lemmas on the label-matching update and the sign pass -/

namespace ParsePdfRoute

open JSEmbed JSNum

lemma applyTerm_preserves_get {cell : String} {v : JSNum} {c : JSNum}
    (hne : c.ne0 = true) (habs : v.absGt c = false)
    (fd : FinancialData) (key : FinField) (term : String) (f : FinField)
    (hf : fd.get f = c) : (applyTerm cell v fd key term).get f = c := by
  unfold applyTerm
  split
  · split
    · rename_i hcond
      rw [get_set]
      split
      · rename_i hkf
        subst hkf
        rw [hf] at hcond
        have heq0 : c.eq0 = false := by
          have := hne
          unfold JSNum.ne0 at this
          simpa using this
        rw [heq0, habs] at hcond
        simp at hcond
      · exact hf
    · exact hf
  · exact hf

lemma updateForCell_fixed_get {cell : String} {v : JSNum}
    (fd : FinancialData) (f : FinField)
    (hne : (fd.get f).ne0 = true) (habs : v.absGt (fd.get f) = false) :
    (updateForCell cell v fd).get f = fd.get f := by
  unfold updateForCell
  exact foldl_preserve (fun fd' => fd'.get f = fd.get f) _ patterns
    (fun fd' kv _ hfd' =>
      foldl_preserve (fun fd'' => fd''.get f = fd.get f) _ kv.2
        (fun fd'' t _ hfd'' =>
          applyTerm_preserves_get hne habs fd'' kv.1 t f hfd'')
        fd' hfd')
    fd rfl

/-- Result of one sign-normalization step on a single value. -/
def absNorm (v : JSNum) : JSNum := if v.ltB 0 then v.absJS else v

lemma ltB_fin_zero (q : JSRat) : (JSNum.fin q).ltB 0 = decide (q.num < 0) := by
  simp [JSNum.ltB, JSRat.ltb, JSRat.ofNat]

lemma absNorm_fin (q : JSRat) :
    absNorm (JSNum.fin q) =
      if q.num < 0 then JSNum.fin q.absR else JSNum.fin q := by
  unfold absNorm
  rw [ltB_fin_zero]
  by_cases h : q.num < 0 <;> simp [h, JSNum.absJS]

lemma absNorm_idem (v : JSNum) : absNorm (absNorm v) = absNorm v := by
  cases v with
  | fin q =>
    by_cases h : q.num < 0
    · simp [absNorm_fin, h, JSRat.absR, not_lt.mpr (abs_nonneg q.num)]
    · simp [absNorm_fin, h]
  | nan => rfl
  | inf => rfl
  | neginf => rfl

lemma absStepFn_get (fd : FinancialData) (key f : FinField) :
    (absStepFn fd key).get f =
      if key = f then absNorm (fd.get f) else fd.get f := by
  unfold absStepFn
  by_cases hlt : (fd.get key).ltB 0 = true
  · rw [if_pos hlt, get_set]
    by_cases hkf : key = f
    · subst hkf
      rw [if_pos rfl, if_pos rfl]
      unfold absNorm
      rw [if_pos hlt]
    · rw [if_neg hkf, if_neg hkf]
  · rw [if_neg hlt]
    by_cases hkf : key = f
    · subst hkf
      rw [if_pos rfl]
      unfold absNorm
      rw [if_neg hlt]
    · rw [if_neg hkf]

lemma foldl_absStep_get (L : List FinField) (fd : FinancialData) (f : FinField) :
    ((L.foldl absStepFn fd).get f) =
      if f ∈ L then absNorm (fd.get f) else fd.get f := by
  induction L generalizing fd with
  | nil => simp
  | cons a t ih =>
    rw [List.foldl_cons, ih, absStepFn_get]
    by_cases haf : a = f
    · rw [haf]
      by_cases hft : f ∈ t <;>
        simp [hft, absNorm_idem, List.mem_cons]
    · by_cases hft : f ∈ t <;>
        simp [hft, haf, List.mem_cons, Ne.symm haf]

lemma absPass_get (fd : FinancialData) (f : FinField) :
    (absPass fd).get f = absNorm (fd.get f) := by
  unfold absPass
  rw [foldl_absStep_get]
  have hf : f ∈ finFieldKeys := by cases f <;> simp [finFieldKeys]
  rw [if_pos hf]

lemma absNorm_nonnegOrNaN (v : JSNum) : (absNorm v).nonnegOrNaN = true := by
  cases v with
  | fin q =>
    rw [absNorm_fin]
    by_cases h : q.num < 0
    · simp [h, JSNum.nonnegOrNaN, JSRat.absR, abs_nonneg]
    · simp [h, JSNum.nonnegOrNaN, le_of_not_lt h]
  | nan => rfl
  | inf => rfl
  | neginf => rfl

end ParsePdfRoute

/-! ## Claims C6, C7, C8 -/

namespace Claims

open JSEmbed JSNum ParsePdfRoute

/-- C6 (confirmed): during label matching, a field already holding a
non-zero value is overwritten only when the new value's absolute
magnitude strictly exceeds the existing one — in particular a tie never
overwrites; and on the spec's concrete table (label "Revenue" next to
100 in row 1, label "Total Revenue" next to 500 in row 5) the final
revenue field is 500 — not 100 and not 600. -/
theorem c6_magnitude_conflict_rule :
    (∀ (fd : FinancialData) (cell : String) (v : JSNum) (f : FinField),
        (fd.get f).ne0 = true → v.absGt (fd.get f) = false →
        (updateForCell cell v fd).get f = fd.get f) ∧
      (extractFinancialDataFromExcel 2026
          [["Revenue", "100"], [], [], [], ["Total Revenue", "500"]]).revenue =
        JSNum.fin 500 := by
  constructor
  · intro fd cell v f hne habs
    exact updateForCell_fixed_get fd f hne habs
  · decide

/-- Witness for C6: with revenue already 100 and a new tied match of
magnitude 100, the update leaves the field unchanged. -/
theorem c6_magnitude_conflict_witness :
    (updateForCell "revenue" (JSNum.fin 100)
        { defaultFinancialData 2026 with revenue := JSNum.fin 100 }).get
        FinField.revenue =
      ({ defaultFinancialData 2026 with
          revenue := JSNum.fin 100 } : FinancialData).get FinField.revenue :=
  c6_magnitude_conflict_rule.1
    { defaultFinancialData 2026 with revenue := JSNum.fin 100 }
    "revenue" (JSNum.fin 100) FinField.revenue (by decide) (by decide)

/-- C7 (amended): the derived-value rules fire only when the target
field is exactly 0 and the inputs are strictly *positive* (not merely
non-zero); under those conditions grossProfit, operatingIncome and
totalEquity receive the accounting identities, the operatingIncome rule
reading the grossProfit just computed; and the spec's concrete instance
revenue=1000, costOfGoodsSold=600, grossProfit=0 yields 400. -/
theorem c7_derived_identities :
    (∀ r : FinancialData,
        r.grossProfit.eq0 = true → r.revenue.gtB 0 = true →
        r.costOfGoodsSold.gtB 0 = true →
        r.operatingIncome.eq0 = true → r.operatingExpenses.gtB 0 = true →
        (r.revenue.subJS r.costOfGoodsSold).gtB 0 = true →
        r.totalEquity.eq0 = true → r.totalAssets.gtB 0 = true →
        r.totalLiabilities.gtB 0 = true →
        (derivedPass r).grossProfit = r.revenue.subJS r.costOfGoodsSold ∧
          (derivedPass r).operatingIncome =
            (r.revenue.subJS r.costOfGoodsSold).subJS r.operatingExpenses ∧
          (derivedPass r).totalEquity =
            r.totalAssets.subJS r.totalLiabilities) ∧
      (derivedPass { defaultFinancialData 2026 with
          revenue := JSNum.fin 1000
          costOfGoodsSold := JSNum.fin 600 }).grossProfit = JSNum.fin 400 := by
  constructor
  · intro r h1 h2 h3 h4 h5 h6 h7 h8 h9
    have h6' : (r.revenue.subJS r.costOfGoodsSold).eq0 = false := by
      revert h6
      cases r.revenue.subJS r.costOfGoodsSold with
      | fin q =>
        simp [JSNum.gtB, JSNum.ltB, JSNum.eq0, JSRat.ltb, JSRat.ofNat]
        intro h
        exact ne_of_gt h
      | nan => simp [JSNum.gtB, JSNum.ltB, JSNum.eq0]
      | inf => simp [JSNum.eq0]
      | neginf => simp [JSNum.gtB, JSNum.ltB, JSNum.eq0]
    have e1 : derivedGrossProfit r =
        { r with grossProfit := r.revenue.subJS r.costOfGoodsSold } := by
      unfold derivedGrossProfit
      rw [h1, h2, h3]
      rfl
    have e2 : derivedOperatingIncome
        { r with grossProfit := r.revenue.subJS r.costOfGoodsSold } =
        { r with
            grossProfit := r.revenue.subJS r.costOfGoodsSold
            operatingIncome :=
              (r.revenue.subJS r.costOfGoodsSold).subJS r.operatingExpenses } := by
      unfold derivedOperatingIncome
      dsimp only
      rw [h4, h5, h6]
      rfl
    have e3 : derivedTotalEquity
        { r with
            grossProfit := r.revenue.subJS r.costOfGoodsSold
            operatingIncome :=
              (r.revenue.subJS r.costOfGoodsSold).subJS r.operatingExpenses } =
        { r with
            grossProfit := r.revenue.subJS r.costOfGoodsSold
            operatingIncome :=
              (r.revenue.subJS r.costOfGoodsSold).subJS r.operatingExpenses
            totalEquity := r.totalAssets.subJS r.totalLiabilities } := by
      unfold derivedTotalEquity
      dsimp only
      rw [h7, h8, h9]
      rfl
    unfold derivedPass
    rw [e1, e2, e3]
    exact ⟨rfl, rfl, rfl⟩
  · decide

/-- Witness for C7 at a fully concrete record with revenue 1000,
costOfGoodsSold 600, operatingExpenses 100, totalAssets 500,
totalLiabilities 200. -/
theorem c7_derived_identities_witness :
    (derivedPass { defaultFinancialData 2026 with
        revenue := JSNum.fin 1000
        costOfGoodsSold := JSNum.fin 600
        operatingExpenses := JSNum.fin 100
        totalAssets := JSNum.fin 500
        totalLiabilities := JSNum.fin 200 }).grossProfit =
      (JSNum.fin 1000).subJS (JSNum.fin 600) ∧
    (derivedPass { defaultFinancialData 2026 with
        revenue := JSNum.fin 1000
        costOfGoodsSold := JSNum.fin 600
        operatingExpenses := JSNum.fin 100
        totalAssets := JSNum.fin 500
        totalLiabilities := JSNum.fin 200 }).operatingIncome =
      ((JSNum.fin 1000).subJS (JSNum.fin 600)).subJS (JSNum.fin 100) ∧
    (derivedPass { defaultFinancialData 2026 with
        revenue := JSNum.fin 1000
        costOfGoodsSold := JSNum.fin 600
        operatingExpenses := JSNum.fin 100
        totalAssets := JSNum.fin 500
        totalLiabilities := JSNum.fin 200 }).totalEquity =
      (JSNum.fin 500).subJS (JSNum.fin 200) :=
  c7_derived_identities.1 _ (by decide) (by decide) (by decide) (by decide)
    (by decide) (by decide) (by decide) (by decide) (by decide)

/-- C7 counterexample: with revenue = -1000 (non-zero), costOfGoodsSold
= 600 (non-zero) and grossProfit = 0, the pass leaves grossProfit at 0
instead of the -1600 the claim's "inputs non-zero" condition demands —
the code requires strictly positive inputs. -/
theorem c7_derived_counterexample :
    ({ defaultFinancialData 2026 with
        revenue := JSNum.fin (-1000)
        costOfGoodsSold := JSNum.fin 600 } : FinancialData).grossProfit.eq0
        = true ∧
      ({ defaultFinancialData 2026 with
          revenue := JSNum.fin (-1000)
          costOfGoodsSold := JSNum.fin 600 } : FinancialData).revenue.ne0
        = true ∧
      ({ defaultFinancialData 2026 with
          revenue := JSNum.fin (-1000)
          costOfGoodsSold := JSNum.fin 600 } : FinancialData).costOfGoodsSold.ne0
        = true ∧
      (JSNum.fin (-1000)).subJS (JSNum.fin 600) = JSNum.fin (-1600) ∧
      (derivedPass { defaultFinancialData 2026 with
          revenue := JSNum.fin (-1000)
          costOfGoodsSold := JSNum.fin 600 }).grossProfit = JSNum.fin 0 ∧
      JSNum.fin 0 ≠ JSNum.fin (-1600) := by
  refine ⟨by decide, by decide, by decide, by decide, by decide, by decide⟩

/-- C8 (amended): after the sign-normalization pass every field the pass
touches (all numeric fields except year/quarter) is non-negative or NaN:
any negative value — -Infinity included — is replaced by its absolute
value, while NaN (for which `NaN < 0` is false) passes through and can
only arise from infinite operands of the derived-value subtraction; on
the spec's example a parsed netIncome of -250 is stored as 250. -/
theorem c8_sign_normalization :
    (∀ (fd : FinancialData) (f : FinField),
        ((absPass fd).get f).nonnegOrNaN = true) ∧
      (extractFinancialDataFromExcel 2026
          [["net income", "(250)"]]).netIncome = JSNum.fin 250 := by
  constructor
  · intro fd f
    rw [absPass_get]
    exact absNorm_nonnegOrNaN _
  · decide

/-- C8 counterexample: on a table whose revenue and costOfGoodsSold
cells both parse to Infinity, the derived pass computes
grossProfit = Infinity - Infinity = NaN, which survives sign
normalization and is not a non-negative number. -/
theorem c8_sign_counterexample :
    (extractFinancialDataFromExcel 2026
        [["revenue", "Infinity"], ["cogs", "Infinity"]]).grossProfit =
      JSNum.nan ∧
      JSNum.nan.nonneg = false := by
  refine ⟨by decide, rfl⟩

end Claims

/-! ## Lemmas for the AI-path claims -/

namespace AIFinancialParser

open JSEmbed JSNum

lemma jsOrVal_self (v : JsonVal) : jsOrVal v v = v := by
  unfold jsOrVal
  split <;> rfl

lemma cleanNumber_ne_nan (v : Option JsonVal) : cleanNumber v ≠ JSNum.nan := by
  unfold cleanNumber
  match v with
  | none => simp
  | some .jnull => simp
  | some (.jbool b) => simp
  | some (.jnum q) => simp
  | some (.jarr l) => simp
  | some (.jobj fs) => simp
  | some (.jstr s) =>
    dsimp only
    split
    · simp
    · assumption

lemma orElse_zero_ne_nan {v : JSNum} (h : v ≠ JSNum.nan) :
    v.orElse 0 ≠ JSNum.nan := by
  unfold JSNum.orElse
  split
  · exact h
  · simp [OfNat.ofNat]

lemma jsrat_numeral_num (n : ℕ) [n.AtLeastTwo] :
    (OfNat.ofNat n : JSRat).num = (n : ℤ) := rfl

lemma jsrat_numeral_den (n : ℕ) [n.AtLeastTwo] :
    (OfNat.ofNat n : JSRat).den = 1 := rfl

lemma jsrat_zero_eq : (0 : JSRat) = ⟨0, 1⟩ := rfl

lemma jsrat_hundred_eq : (100 : JSRat) = ⟨100, 1⟩ := rfl

lemma clamp_bounds {v : JSNum} (h : v ≠ JSNum.nan) :
    (JSNum.fin 0).leB (minJS (maxJS v (JSNum.fin 0)) (JSNum.fin 100)) = true ∧
      (minJS (maxJS v (JSNum.fin 0)) (JSNum.fin 100)).leB (JSNum.fin 100) = true := by
  cases v with
  | nan => exact absurd rfl h
  | inf =>
    constructor <;>
      simp [JSNum.maxJS, JSNum.minJS, JSNum.leB, JSRat.leb, jsrat_zero_eq,
        jsrat_hundred_eq]
  | neginf =>
    constructor <;>
      simp [JSNum.maxJS, JSNum.minJS, JSNum.leB, JSRat.leb, JSRat.ltb,
        jsrat_zero_eq, jsrat_hundred_eq]
  | fin q =>
    have hmax : maxJS (JSNum.fin q) (JSNum.fin 0) =
        JSNum.fin (if q.ltb 0 then (0 : JSRat) else q) := rfl
    by_cases hq : q.ltb 0 = true
    · rw [hmax, if_pos hq]
      exact ⟨by decide, by decide⟩
    · rw [hmax, if_neg hq]
      have hq' : ¬ q.num < 0 := by
        simpa [JSRat.ltb, jsrat_zero_eq] using hq
      have hmin : minJS (JSNum.fin q) (JSNum.fin 100) =
          JSNum.fin (if (100 : JSRat).ltb q then (100 : JSRat) else q) := rfl
      by_cases h100 : (100 : JSRat).ltb q = true
      · rw [hmin, if_pos h100]
        exact ⟨by decide, by decide⟩
      · rw [hmin, if_neg h100]
        have h100' : ¬ (100 : ℤ) * (q.den : ℤ) < q.num := by
          simpa [JSRat.ltb, jsrat_hundred_eq] using h100
        constructor
        · simp only [JSNum.leB, JSRat.leb, jsrat_zero_eq]
          simp only [decide_eq_true_eq]
          push_cast
          omega
        · simp only [JSNum.leB, JSRat.leb, jsrat_hundred_eq]
          simp only [decide_eq_true_eq]
          push_cast
          omega

end AIFinancialParser

/-! ## Claims C2 and C5 -/

namespace Claims

open JSEmbed JSNum AIFinancialParser

/-- C2 (amended): the financial extractor returns exactly the heuristic
fallback result on a missing credential, a transport failure or an empty
completion, but on a delivered completion containing no parseable JSON
(no brace block, or an unparsable one) it returns a fixed default
statement — all-zero record, companyName "Unknown Company", confidence 0
— rather than the heuristic result; the product extractor falls back to
its heuristic parser in all five failure modes. -/
theorem c2_model_failure_fallback (y : ℤ) (text : String) :
    parseFinancialDataFromText y .noKey text = fallbackParsing y text ∧
      parseFinancialDataFromText y .transportError text = fallbackParsing y text ∧
      parseFinancialDataFromText y .emptyCompletion text = fallbackParsing y text ∧
      (∀ (s : String) (j : Option JsonVal),
        extractBraces s.data = none →
          parseFinancialDataFromText y (.completion s j) text =
            { companyName := .jstr "Unknown Company"
              statementType := .jstr "income"
              period := .jstr (toString y)
              data := getDefaultFinancialData y
              rawText := text
              confidence := JSNum.fin 0 }) ∧
      (∀ (s : String) (b : List Char),
        extractBraces s.data = some b →
          parseFinancialDataFromText y (.completion s none) text =
            { companyName := .jstr "Unknown Company"
              statementType := .jstr "income"
              period := .jstr (toString y)
              data := getDefaultFinancialData y
              rawText := text
              confidence := JSNum.fin 0 }) ∧
      ParseProductsRoute.parseProductsWithAI .noKey text =
        ParseProductsRoute.fallbackParsing text ∧
      ParseProductsRoute.parseProductsWithAI .transportError text =
        ParseProductsRoute.fallbackParsing text ∧
      ParseProductsRoute.parseProductsWithAI .emptyCompletion text =
        ParseProductsRoute.fallbackParsing text ∧
      (∀ (s : String) (j : Option JsonVal),
        extractBraces s.data = none →
          ParseProductsRoute.parseProductsWithAI (.completion s j) text =
            ParseProductsRoute.fallbackParsing text) ∧
      (∀ (s : String),
        ParseProductsRoute.parseProductsWithAI (.completion s none) text =
          ParseProductsRoute.fallbackParsing text) := by
  refine ⟨rfl, rfl, rfl, ?_, ?_, rfl, rfl, rfl, ?_, ?_⟩
  · intro s j h
    unfold parseFinancialDataFromText parseAIResponse
    dsimp only
    rw [h]
    unfold defaultAIParsed
    dsimp only
    rw [jsOrVal_self, jsOrVal_self, jsOrVal_self]
    rfl
  · intro s b h
    unfold parseFinancialDataFromText parseAIResponse
    dsimp only
    rw [h]
    unfold defaultAIParsed
    dsimp only
    rw [jsOrVal_self, jsOrVal_self, jsOrVal_self]
    rfl
  · intro s j h
    unfold ParseProductsRoute.parseProductsWithAI
    dsimp only
    rw [h]
  · intro s
    unfold ParseProductsRoute.parseProductsWithAI
    dsimp only
    cases h : extractBraces s.data with
    | none => rfl
    | some b => rfl

/-- Witness for C2 at a concrete non-JSON completion "hello": the
financial result is the fixed default statement. -/
theorem c2_model_failure_witness :
    parseFinancialDataFromText 2026 (.completion "hello" none) "x" =
      { companyName := .jstr "Unknown Company"
        statementType := .jstr "income"
        period := .jstr (toString (2026 : ℤ))
        data := getDefaultFinancialData 2026
        rawText := "x"
        confidence := JSNum.fin 0 } :=
  (c2_model_failure_fallback 2026 "x").2.2.2.1 "hello" none (by decide)

/-- C2 counterexample: for the text "Revenue 500" and the non-JSON
completion "hello", the AI path returns the default statement (revenue
0, confidence 0) while the heuristic fallback run on the same text
extracts revenue 500 with confidence 20 — the results differ, refuting
the claimed equality for the non-JSON failure mode. -/
theorem c2_model_failure_counterexample :
    (parseFinancialDataFromText 2026
        (.completion "hello" none) "Revenue 500").data.revenue = JSNum.fin 0 ∧
      (fallbackParsing 2026 "Revenue 500").data.revenue = JSNum.fin 500 ∧
      parseFinancialDataFromText 2026 (.completion "hello" none) "Revenue 500" ≠
        fallbackParsing 2026 "Revenue 500" := by
  refine ⟨by decide, by decide, ?_⟩
  intro h
  have h1 : (parseFinancialDataFromText 2026
      (.completion "hello" none) "Revenue 500").data.revenue = JSNum.fin 0 := by
    decide
  rw [h] at h1
  have h2 : (fallbackParsing 2026 "Revenue 500").data.revenue = JSNum.fin 500 := by
    decide
  rw [h2] at h1
  exact absurd h1 (by decide)

/-- C5 (amended): the validation step coerces numeric fields with the
tolerant cleaner — absent, null, or unparsable-string values become 0,
numbers pass through — and clamps confidence into [0,100]; but
statementType is *not* restricted to the three-member enum: it defaults
to "income" only when the supplied value is falsy (absent, null, empty
string, false, 0), and any truthy value passes through unvalidated. -/
theorem c5_validation_coercion (y : ℤ) :
    cleanNumber none = JSNum.fin 0 ∧
      cleanNumber (some .jnull) = JSNum.fin 0 ∧
      (∀ s : String,
        parseFloatChars (s.data.filter (fun c => !(c = ',' || c = '$'))) =
            JSNum.nan →
          cleanNumber (some (.jstr s)) = JSNum.fin 0) ∧
      (∀ q : JSRat, cleanNumber (some (.jnum q)) = JSNum.fin q) ∧
      (∀ j : JsonVal, jget j "statementType" = none →
        (validateAndCleanData y j).statementType = .jstr "income") ∧
      (∀ (j : JsonVal) (v : JsonVal), jget j "statementType" = some v →
        jsonTruthy v = true → (validateAndCleanData y j).statementType = v) ∧
      (∀ j : JsonVal,
        (JSNum.fin 0).leB (validateAndCleanData y j).confidence = true ∧
          ((validateAndCleanData y j).confidence).leB (JSNum.fin 100) = true) := by
  refine ⟨rfl, rfl, ?_, fun q => rfl, ?_, ?_, ?_⟩
  · intro s h
    simp only [cleanNumber]
    rw [h]
    simp
  · intro j h
    unfold validateAndCleanData
    dsimp only
    rw [h]
    rfl
  · intro j v h htruthy
    have e : (validateAndCleanData y j).statementType =
        jgetOr (jget j "statementType") (.jstr "income") := rfl
    rw [e, h]
    simp only [jgetOr, jsOrVal, htruthy, if_true]
  · intro j
    exact clamp_bounds
      (orElse_zero_ne_nan (cleanNumber_ne_nan (jget j "confidence")))

/-- Witness for C5: the unparsable string "N/A" becomes 0, an absent
statementType becomes "income", and a confidence of 250 clamps. -/
theorem c5_validation_witness :
    cleanNumber (some (.jstr "N/A")) = JSNum.fin 0 ∧
      (validateAndCleanData 2026 (.jobj [])).statementType = .jstr "income" ∧
      (JSNum.fin 0).leB
          (validateAndCleanData 2026
            (.jobj [("confidence", .jnum (JSRat.ofNat 250))])).confidence = true ∧
      ((validateAndCleanData 2026
          (.jobj [("confidence", .jnum (JSRat.ofNat 250))])).confidence).leB
          (JSNum.fin 100) = true :=
  ⟨(c5_validation_coercion 2026).2.2.1 "N/A" (by decide),
   (c5_validation_coercion 2026).2.2.2.2.1 (.jobj []) rfl,
   ((c5_validation_coercion 2026).2.2.2.2.2.2
     (.jobj [("confidence", .jnum (JSRat.ofNat 250))])).1,
   ((c5_validation_coercion 2026).2.2.2.2.2.2
     (.jobj [("confidence", .jnum (JSRat.ofNat 250))])).2⟩

/-- C5 counterexample: the truthy non-enum statementType "garbage"
passes through validation unchanged instead of defaulting to
"income". -/
theorem c5_validation_counterexample :
    (validateAndCleanData 2026
        (.jobj [("statementType", .jstr "garbage")])).statementType =
      JsonVal.jstr "garbage" ∧
      ("garbage" ≠ "income" ∧ "garbage" ≠ "balance" ∧ "garbage" ≠ "cashflow") := by
  refine ⟨rfl, by decide, by decide, by decide⟩

end Claims

/-! ## Lemmas for the product-parser claims -/

namespace ParseProductsRoute

open JSEmbed

lemma takeWhile_all_append {p : Char → Bool} (l1 l2 : List Char)
    (h1 : ∀ c ∈ l1, p c = true) (h2 : ∀ c ∈ l2.take 1, p c = false) :
    (l1 ++ l2).takeWhile p = l1 := by
  induction l1 with
  | nil =>
    cases l2 with
    | nil => rfl
    | cons c t =>
      simp only [List.nil_append, List.takeWhile_cons]
      rw [h2 c (by simp)]
      rfl
  | cons c t ih =>
    simp only [List.cons_append, List.takeWhile_cons]
    rw [h1 c (List.mem_cons_self _ _)]
    simp only [if_true]
    rw [ih (fun c' hc' => h1 c' (List.mem_cons_of_mem _ hc'))]

lemma firstDigitRun_spec (pre run post : List Char)
    (hpre : ∀ c ∈ pre, c.isDigit = false)
    (hrun : run ≠ []) (hdig : ∀ c ∈ run, c.isDigit = true)
    (hpost : ∀ c ∈ post.take 1, c.isDigit = false) :
    firstDigitRun (pre ++ run ++ post) = some run := by
  induction pre with
  | nil =>
    cases run with
    | nil => exact absurd rfl hrun
    | cons c t =>
      simp only [List.nil_append, List.cons_append, firstDigitRun]
      rw [hdig c (List.mem_cons_self _ _)]
      simp only [if_true]
      show some (((c :: t) ++ post).takeWhile Char.isDigit) = some (c :: t)
      rw [takeWhile_all_append _ _ hdig hpost]
  | cons c t ih =>
    simp only [List.cons_append, firstDigitRun]
    rw [hpre c (List.mem_cons_self _ _)]
    simp only [Bool.false_eq_true, if_false]
    exact ih (fun c' hc' => hpre c' (List.mem_cons_of_mem _ hc'))

end ParseProductsRoute

/-! ## Claims C9 and C10 -/

namespace Claims

open JSEmbed JSNum ParseProductsRoute

/-- C9 (confirmed): the heuristic product parser maps the line
"Metal Thermos - 100 USD - 7 Pieces" to the product record
(name "Metal Thermos", price 100, quantity 7, currency "USD"), and for
the one-line list totalItems = 7 and totalValue = 700, both recomputed
from the product sequence. -/
theorem c9_dash_format_roundtrip :
    ParseProductsRoute.fallbackParsing "Metal Thermos - 100 USD - 7 Pieces" =
      { products := [{ name := "Metal Thermos", price := JSNum.fin 100,
                       quantity := JSNum.fin 7, currency := "USD" }]
        totalItems := JSNum.fin 7
        totalValue := JSNum.fin 700
        rawText := "Metal Thermos - 100 USD - 7 Pieces"
        confidence := JSNum.fin 60 } := by
  decide

/-- C10 (amended): the quantity extracted by `parseQuantity` — used by
the free-text product fallback — is `parseInt` of the *first* digit run
anywhere in the line (the quantity-keyword group of its regex is
optional, so keyword adjacency plays no role), and it defaults to 1
only when the line contains no digits at all. -/
theorem c10_quantity_first_integer :
    (∀ (s : String) (pre run post : List Char),
        s.data = pre ++ run ++ post →
        (∀ c ∈ pre, c.isDigit = false) →
        run ≠ [] →
        (∀ c ∈ run, c.isDigit = true) →
        (∀ c ∈ post.take 1, c.isDigit = false) →
        parseQuantity s = JSNum.fin (JSRat.ofNat (natOfDigits run))) ∧
      (∀ s : String, (∀ c ∈ s.data, c.isDigit = false) →
        parseQuantity s = JSNum.fin 1) := by
  constructor
  · intro s pre run post hs hpre hrun hdig hpost
    unfold parseQuantity
    rw [hs, firstDigitRun_spec pre run post hpre hrun hdig hpost]
    rfl
  · intro s h
    unfold parseQuantity
    have hnone : firstDigitRun s.data = none := by
      have : ∀ cs : List Char, (∀ c ∈ cs, c.isDigit = false) →
          firstDigitRun cs = none := by
        intro cs
        induction cs with
        | nil => intro _; rfl
        | cons c t ih =>
          intro hall
          simp only [firstDigitRun]
          rw [hall c (List.mem_cons_self _ _)]
          simp only [Bool.false_eq_true, if_false]
          exact ih (fun c' hc' => hall c' (List.mem_cons_of_mem _ hc'))
      exact this s.data h
    rw [hnone]

/-- Witness for C10: in "ab12cd" the first digit run is "12", so the
quantity is 12; "no digits" defaults to 1. -/
theorem c10_quantity_witness :
    parseQuantity "ab12cd" = JSNum.fin (JSRat.ofNat (natOfDigits ['1', '2'])) ∧
      parseQuantity "nodigits" = JSNum.fin 1 :=
  ⟨c10_quantity_first_integer.1 "ab12cd" ['a', 'b'] ['1', '2'] ['c', 'd']
      (by decide) (by decide) (by decide) (by decide) (by decide),
   c10_quantity_first_integer.2 "nodigits" (by decide)⟩

/-- C10 counterexample: the free-text line "Widget $5 10 pieces" has the
quantity token "10 pieces" (keyword-adjacent integer 10), yet the
emitted product carries quantity 5 — the first integer of the line, the
price digits — contradicting both the keyword-adjacency and the
default-1 reading of the claim. -/
theorem c10_quantity_counterexample :
    ParseProductsRoute.fallbackParsing "Widget $5 10 pieces" =
      { products := [{ name := "Widget", price := JSNum.fin 5,
                       quantity := JSNum.fin 5, currency := "USD" }]
        totalItems := JSNum.fin 5
        totalValue := JSNum.fin 25
        rawText := "Widget $5 10 pieces"
        confidence := JSNum.fin 60 } ∧
      hasQuantity "Widget $5 10 pieces" = true ∧
      (JSNum.fin 5 : JSNum) ≠ JSNum.fin 10 := by
  refine ⟨by decide, by decide, by decide⟩

end Claims

/-! ## Lemmas for default-safety (C3) -/

namespace ParsePdfRoute

open JSEmbed JSNum

lemma getD_mem {α : Type _} (row : List α) (i : ℕ) (d : α)
    (h : i < row.length) : row.getD i d ∈ row := by
  induction row generalizing i with
  | nil => simp at h
  | cons x t ih =>
    cases i with
    | zero => exact List.mem_cons_self _ _
    | succ n =>
      exact List.mem_cons_of_mem _ (ih n (Nat.lt_of_succ_lt_succ h))

lemma applyTerm_noMatch {cell : String} {v : JSNum} (fd : FinancialData)
    (key : FinField) (term : String)
    (h : strIncl cell (lowerStr term) = false) :
    applyTerm cell v fd key term = fd := by
  unfold applyTerm
  rw [h]
  simp

lemma updateForCell_noMatch {cell : String} {v : JSNum} (fd : FinancialData)
    (h : ∀ kv ∈ patterns, ∀ t ∈ kv.2, strIncl cell (lowerStr t) = false) :
    updateForCell cell v fd = fd := by
  unfold updateForCell
  exact foldl_preserve (fun fd' => fd' = fd) _ patterns
    (fun fd' kv hkv hfd' =>
      foldl_preserve (fun fd'' => fd'' = fd) _ kv.2
        (fun fd'' t ht hfd'' => by
          rw [applyTerm_noMatch fd'' kv.1 t (h kv hkv t ht)]
          exact hfd'')
        fd' hfd')
    fd rfl

lemma labelPass_noMatch (fd : FinancialData) (data : RawTable)
    (h : ∀ row ∈ data, ∀ c ∈ row, ∀ kv ∈ patterns, ∀ t ∈ kv.2,
        strIncl (trimStr (lowerStr c)) (lowerStr t) = false) :
    labelPass fd data = fd := by
  unfold labelPass
  refine foldl_preserve (fun fd' => fd' = fd) _ data (fun fd' row hrow hfd' => ?_)
    fd rfl
  by_cases hre : row.isEmpty
  · rw [if_pos hre]
    exact hfd'
  · rw [if_neg hre]
    refine foldl_preserve (fun fd'' => fd'' = fd) _ (List.range row.length)
      (fun fd'' i hi hfd'' => ?_) fd' hfd'
    dsimp only
    by_cases hcv : trimStr (lowerStr (row.getD i "")) = ""
    · rw [if_pos hcv]
      exact hfd''
    · rw [if_neg hcv]
      rw [updateForCell_noMatch fd''
        (h row hrow (row.getD i "") (getD_mem row i "" (List.mem_range.mp hi)))]
      exact hfd''


lemma totalPass_noTotal (fd : FinancialData) (data : RawTable)
    (h : ∀ row ∈ data, strIncl (rowTextOf row) "total" = false ∧
        strIncl (rowTextOf row) "subtotal" = false) :
    totalPass fd data = fd := by
  unfold totalPass
  refine foldl_preserve (fun fd' => fd' = fd) _ data (fun fd' row hrow hfd' => ?_)
    fd rfl
  by_cases hre : row.isEmpty
  · rw [if_pos hre]
    exact hfd'
  · rw [if_neg hre]
    dsimp only
    rw [(h row hrow).1, (h row hrow).2]
    simp only [Bool.or_self, Bool.false_eq_true, if_false]
    exact hfd'

lemma bigNumberPass_noBig (fd : FinancialData) (data : RawTable)
    (h : ∀ row ∈ data, ∀ c ∈ row, (parseCell c).gtB 10000 = false) :
    bigNumberPass fd data = fd := by
  unfold bigNumberPass
  split
  · refine foldl_preserve (fun fd' => fd' = fd) _ data
      (fun fd' row hrow hfd' => ?_) fd rfl
    by_cases hre : row.isEmpty
    · rw [if_pos hre]
      exact hfd'
    · rw [if_neg hre]
      refine foldl_preserve (fun fd'' => fd'' = fd) _ row
        (fun fd'' c hc hfd'' => ?_) fd' hfd'
      dsimp only
      rw [h row hrow c hc]
      simp only [Bool.and_false, Bool.false_eq_true, if_false]
      split
      · exact hfd''
      · exact hfd''
  · rfl

end ParsePdfRoute

/-! ## Claim C3 -/

namespace Claims

open JSEmbed JSNum ParsePdfRoute

set_option maxHeartbeats 8000000 in
/-- C3 (amended): for any input table in which no cell's
lowercased/trimmed text contains a synonym-dictionary term, no row's
joined text contains "total" or "subtotal", and — the condition the
original claim misses — no cell parses to a number above 10000 (which
would trigger the tertiary large-number fallback into revenue),
the extractor returns every field at its default (0, or the current
year) and the confidence score is exactly 0. -/
theorem c3_default_safety (y : ℤ) (data : RawTable)
    (hterms : ∀ row ∈ data, ∀ c ∈ row, ∀ kv ∈ patterns, ∀ t ∈ kv.2,
        strIncl (trimStr (lowerStr c)) (lowerStr t) = false)
    (htotal : ∀ row ∈ data, strIncl (rowTextOf row) "total" = false ∧
        strIncl (rowTextOf row) "subtotal" = false)
    (hbig : ∀ row ∈ data, ∀ c ∈ row, (parseCell c).gtB 10000 = false) :
    extractFinancialDataFromExcel y data = defaultFinancialData y ∧
      calculateConfidence (extractFinancialDataFromExcel y data) = 0 := by
  have e : extractFinancialDataFromExcel y data = defaultFinancialData y := by
    unfold extractFinancialDataFromExcel
    rw [labelPass_noMatch _ _ hterms, totalPass_noTotal _ _ htotal,
      bigNumberPass_noBig _ _ hbig]
    rfl
  refine ⟨e, ?_⟩
  rw [e]
  rfl

set_option maxHeartbeats 8000000 in
/-- Witness for C3 at the keyword-free table [["hello", "world"]]. -/
theorem c3_default_safety_witness :
    extractFinancialDataFromExcel 2026 [["hello", "world"]] =
      defaultFinancialData 2026 ∧
      calculateConfidence (extractFinancialDataFromExcel 2026
        [["hello", "world"]]) = 0 :=
  c3_default_safety 2026 [["hello", "world"]] (by decide) (by decide) (by decide)

set_option maxHeartbeats 8000000 in
/-- C3 counterexample: the table [["", "50000"]] contains no financial
keyword under any reading (its text has no letters at all), yet the
large-number fallback assigns revenue = 50000 and the confidence score
is 20, not 0. -/
theorem c3_default_safety_counterexample :
    (extractFinancialDataFromExcel 2026 [["", "50000"]]).revenue =
        JSNum.fin 50000 ∧
      extractFinancialDataFromExcel 2026 [["", "50000"]] ≠
        defaultFinancialData 2026 ∧
      calculateConfidence (extractFinancialDataFromExcel 2026 [["", "50000"]]) =
        20 ∧
      (∀ kv ∈ patterns, ∀ t ∈ kv.2,
        strIncl (trimStr (lowerStr "50000")) (lowerStr t) = false) ∧
      strIncl (rowTextOf ["", "50000"]) "total" = false := by
  refine ⟨by decide, by decide, by decide, by decide, by decide⟩

end Claims

/-! ## Lemmas for field finiteness (C4) -/

namespace ParsePdfRoute

open JSEmbed JSNum

lemma finite_of_not_nan_not_inf {v : JSNum} (h1 : v ≠ JSNum.nan)
    (h2 : v.isInfinite = false) : v.isFinite = true := by
  cases v <;> simp_all [JSNum.isInfinite, JSNum.isFinite]

lemma div100_ne_nan {p : JSNum} (h : p ≠ JSNum.nan) : p.div100 ≠ JSNum.nan := by
  cases p with
  | fin q => simp [JSNum.div100]
  | nan => exact absurd rfl h
  | inf => simp [JSNum.div100]
  | neginf => simp [JSNum.div100]

lemma guardZero_ne_nan (p : JSNum) :
    (if p = JSNum.nan then JSNum.fin 0 else p) ≠ JSNum.nan := by
  split
  · simp
  · assumption

lemma guardZeroDiv_ne_nan (p : JSNum) :
    (if p = JSNum.nan then JSNum.fin 0 else p.div100) ≠ JSNum.nan := by
  split
  · simp
  · exact div100_ne_nan (by assumption)

lemma parseCell_ne_nan (s : String) : parseCell s ≠ JSNum.nan := by
  unfold parseCell parseValue
  dsimp only
  repeat'
    first
      | exact guardZeroDiv_ne_nan _
      | exact guardZero_ne_nan _
      | split

lemma mem_of_get?_eq_some {α : Type _} {l : List α} {n : ℕ} {a : α}
    (h : l.get? n = some a) : a ∈ l := by
  induction l generalizing n with
  | nil => simp [List.get?] at h
  | cons x t ih =>
    cases n with
    | zero =>
      simp only [List.get?] at h
      cases h
      exact List.mem_cons_self _ _
    | succ m => exact List.mem_cons_of_mem _ (ih h)

lemma getD_oob {α : Type _} (row : List α) (i : ℕ) (d : α)
    (h : row.length ≤ i) : row.getD i d = d := by
  induction row generalizing i with
  | nil => cases i <;> rfl
  | cons x t ih =>
    cases i with
    | zero => simp at h
    | succ n => exact ih n (Nat.le_of_succ_le_succ h)

lemma adjacentValue_finite (row : List String) (i : ℕ)
    (h : ∀ c ∈ row, (parseCell c).isFinite = true) :
    (adjacentValue row i).isFinite = true := by
  have hself : (parseCell (row.getD i "")).isFinite = true := by
    by_cases hi : i < row.length
    · exact h _ (getD_mem row i "" hi)
    · rw [getD_oob row i "" (Nat.le_of_not_lt hi)]
      decide
  have hleftSelf :
      (if 0 < i then
          match row.get? (i - 1) with
          | some c =>
            if (parseCell c).ne0 then parseCell c else parseCell (row.getD i "")
          | none => parseCell (row.getD i "")
        else parseCell (row.getD i "")).isFinite = true := by
    split
    · cases hr2 : row.get? (i - 1) with
      | some c2 =>
        dsimp only
        split
        · exact h c2 (mem_of_get?_eq_some hr2)
        · exact hself
      | none => exact hself
    · exact hself
  unfold adjacentValue
  dsimp only
  cases hr1 : row.get? (i + 1) with
  | some c =>
    dsimp only
    split
    · exact h c (mem_of_get?_eq_some hr1)
    · exact hleftSelf
  | none => exact hleftSelf

/-- All sixteen numeric slots of a record are finite. -/
def FinFinite (fd : FinancialData) : Prop :=
  (∀ f, (fd.get f).isFinite = true) ∧ fd.year.isFinite = true

lemma finFinite_set {fd : FinancialData} {v : JSNum} {key : FinField}
    (h : FinFinite fd) (hv : v.isFinite = true) : FinFinite (fd.set key v) := by
  constructor
  · intro f
    rw [get_set]
    split
    · exact hv
    · exact h.1 f
  · rw [set_year]
    exact h.2

lemma updateForCell_finite {cell : String} {v : JSNum} {fd : FinancialData}
    (hv : v.isFinite = true) (h : FinFinite fd) :
    FinFinite (updateForCell cell v fd) := by
  unfold updateForCell
  refine foldl_preserve FinFinite _ patterns (fun fd' kv _ h' => ?_) fd h
  refine foldl_preserve FinFinite _ kv.2 (fun fd'' t _ h'' => ?_) fd' h'
  unfold applyTerm
  split
  · split
    · exact finFinite_set h'' hv
    · exact h''
  · exact h''

lemma labelPass_finite {data : RawTable} {fd : FinancialData}
    (H : ∀ row ∈ data, ∀ c ∈ row, (parseCell c).isFinite = true)
    (h : FinFinite fd) : FinFinite (labelPass fd data) := by
  unfold labelPass
  refine foldl_preserve FinFinite _ data (fun fd' row hrow h' => ?_) fd h
  by_cases hre : row.isEmpty
  · rw [if_pos hre]
    exact h'
  · rw [if_neg hre]
    refine foldl_preserve FinFinite _ (List.range row.length)
      (fun fd'' i hi h'' => ?_) fd' h'
    dsimp only
    split
    · exact h''
    · exact updateForCell_finite (adjacentValue_finite row i (H row hrow)) h''

lemma totalPass_finite {data : RawTable} {fd : FinancialData}
    (H : ∀ row ∈ data, ∀ c ∈ row, (parseCell c).isFinite = true)
    (h : FinFinite fd) : FinFinite (totalPass fd data) := by
  unfold totalPass
  refine foldl_preserve FinFinite _ data (fun fd' row hrow h' => ?_) fd h
  by_cases hre : row.isEmpty
  · rw [if_pos hre]
    exact h'
  · rw [if_neg hre]
    dsimp only
    split
    · refine foldl_preserve FinFinite _ row (fun fd'' c hc h'' => ?_) fd' h'
      dsimp only
      have hval : (parseCell c).isFinite = true := H row hrow c hc
      split_ifs <;>
        first
          | assumption
          | exact @finFinite_set _ _ FinField.revenue h'' hval
          | exact @finFinite_set _ _ FinField.totalAssets h'' hval
          | exact @finFinite_set _ _ FinField.totalLiabilities h'' hval
          | exact @finFinite_set _ _ FinField.totalEquity h'' hval
    · exact h'

lemma bigNumberPass_finite {data : RawTable} {fd : FinancialData}
    (H : ∀ row ∈ data, ∀ c ∈ row, (parseCell c).isFinite = true)
    (h : FinFinite fd) : FinFinite (bigNumberPass fd data) := by
  unfold bigNumberPass
  split
  · refine foldl_preserve FinFinite _ data (fun fd' row hrow h' => ?_) fd h
    by_cases hre : row.isEmpty
    · rw [if_pos hre]
      exact h'
    · rw [if_neg hre]
      refine foldl_preserve FinFinite _ row (fun fd'' c hc h'' => ?_) fd' h'
      dsimp only
      have hval : (parseCell c).isFinite = true := H row hrow c hc
      split_ifs <;>
        first
          | assumption
          | exact @finFinite_set _ _ FinField.revenue h'' hval
  · exact h

lemma subJS_isFinite {a b : JSNum} (ha : a.isFinite = true)
    (hb : b.isFinite = true) : (a.subJS b).isFinite = true := by
  cases a <;> cases b <;> simp_all [JSNum.subJS, JSNum.isFinite]

lemma derivedPass_finite {fd : FinancialData} (h : FinFinite fd) :
    FinFinite (derivedPass fd) := by
  have d1 : ∀ fd', FinFinite fd' → FinFinite (derivedGrossProfit fd') := by
    intro fd' h'
    unfold derivedGrossProfit
    split
    · exact @finFinite_set _ _ FinField.grossProfit h'
        (subJS_isFinite (h'.1 .revenue) (h'.1 .costOfGoodsSold))
    · exact h'
  have d2 : ∀ fd', FinFinite fd' → FinFinite (derivedOperatingIncome fd') := by
    intro fd' h'
    unfold derivedOperatingIncome
    split
    · exact @finFinite_set _ _ FinField.operatingIncome h'
        (subJS_isFinite (h'.1 .grossProfit) (h'.1 .operatingExpenses))
    · exact h'
  have d3 : ∀ fd', FinFinite fd' → FinFinite (derivedTotalEquity fd') := by
    intro fd' h'
    unfold derivedTotalEquity
    split
    · exact @finFinite_set _ _ FinField.totalEquity h'
        (subJS_isFinite (h'.1 .totalAssets) (h'.1 .totalLiabilities))
    · exact h'
  exact d3 _ (d2 _ (d1 _ h))

lemma absNorm_isFinite {v : JSNum} (h : v.isFinite = true) :
    (absNorm v).isFinite = true := by
  cases v with
  | fin q =>
    rw [absNorm_fin]
    split <;> rfl
  | nan => simp [JSNum.isFinite] at h
  | inf => simp [JSNum.isFinite] at h
  | neginf => simp [JSNum.isFinite] at h

lemma absPass_year (fd : FinancialData) : (absPass fd).year = fd.year := by
  unfold absPass
  refine foldl_preserve (fun fd' => fd'.year = fd.year) _ finFieldKeys
    (fun fd' k _ h' => ?_) fd rfl
  unfold absStepFn
  split
  · rw [set_year]
    exact h'
  · exact h'

lemma absPass_finite {fd : FinancialData} (h : FinFinite fd) :
    FinFinite (absPass fd) := by
  constructor
  · intro f
    rw [absPass_get]
    exact absNorm_isFinite (h.1 f)
  · rw [absPass_year]
    exact h.2

end ParsePdfRoute

/-! ## Claim C4 -/

namespace Claims

open JSEmbed JSNum ParsePdfRoute

set_option maxHeartbeats 8000000 in
/-- C4 (amended): the extraction pipeline never produces NaN or
undefined *from string cells whose parses are finite*: for every table
in which no cell parses to an infinite value, every numeric field of the
produced record is a finite number (defaults 0, or the current year).
Without that proviso the claim fails — a cell whose text parses to
Infinity (e.g. the literal "Infinity") makes a field infinite, and
Infinity-Infinity in the derived pass makes one NaN. -/
theorem c4_field_finiteness (y : ℤ) (data : RawTable)
    (H : ∀ row ∈ data, ∀ c ∈ row, (parseCell c).isInfinite = false) :
    (∀ f, ((extractFinancialDataFromExcel y data).get f).isFinite = true) ∧
      (extractFinancialDataFromExcel y data).year.isFinite = true := by
  have H' : ∀ row ∈ data, ∀ c ∈ row, (parseCell c).isFinite = true :=
    fun row hrow c hc =>
      finite_of_not_nan_not_inf (parseCell_ne_nan c) (H row hrow c hc)
  have hdef : FinFinite (defaultFinancialData y) :=
    ⟨fun f => by cases f <;> rfl, rfl⟩
  exact absPass_finite (derivedPass_finite (bigNumberPass_finite H'
    (totalPass_finite H' (labelPass_finite H' hdef))))

set_option maxHeartbeats 8000000 in
/-- Witness for C4 at the ordinary table [["revenue", "50"]]. -/
theorem c4_field_finiteness_witness :
    ((extractFinancialDataFromExcel 2026 [["revenue", "50"]]).get
        FinField.revenue).isFinite = true :=
  (c4_field_finiteness 2026 [["revenue", "50"]] (by decide)).1 FinField.revenue

set_option maxHeartbeats 8000000 in
/-- C4 counterexample: a revenue cell containing the text "Infinity"
parses, as in JavaScript, to Infinity and flows into the revenue field,
which is then not a finite number. -/
theorem c4_field_finiteness_counterexample :
    (extractFinancialDataFromExcel 2026 [["revenue", "Infinity"]]).revenue =
        JSNum.inf ∧
      JSNum.inf.isFinite = false := by
  refine ⟨by decide, rfl⟩

end Claims
